import Mathlib

/-!
Shallow embedding of the image-film accumulation subsystem of
libYafaRay (Old Structure), from `src/render/imagefilm.cc`.

Machine floating-point values (`float`/`double` in the source) are
modelled as exact rationals (`ℚ`); machine integers as `ℤ`.  Helper
types that the source pulls from headers not present in the snapshot
(`color/color.h`, `common/file.h`, `math/filter.h`, `math/interpolation.h`)
are modelled from the spec and flagged as such in their doc comments.
-/

namespace YafaRay

/-- RGBA color with rational components, modelling the `Rgba` float
color of `color/color.h` (the components `r_`, `g_`, `b_`, `a_`). -/
def Rgba : Type := ℚ × ℚ × ℚ × ℚ

instance : DecidableEq Rgba := inferInstanceAs (DecidableEq (ℚ × ℚ × ℚ × ℚ))

instance : AddCommMonoid Rgba := inferInstanceAs (AddCommMonoid (ℚ × ℚ × ℚ × ℚ))

instance : Module ℚ Rgba := inferInstanceAs (Module ℚ (ℚ × ℚ × ℚ × ℚ))

def Rgba.mk (r g b a : ℚ) : Rgba := (r, g, b, a)

def Rgba.r (c : Rgba) : ℚ := c.1

def Rgba.g (c : Rgba) : ℚ := c.2.1

def Rgba.b (c : Rgba) : ℚ := c.2.2.1

def Rgba.a (c : Rgba) : ℚ := c.2.2.2

/-- RGB color (the density image stores `Rgb`). -/
def Rgb : Type := ℚ × ℚ × ℚ

instance : DecidableEq Rgb := inferInstanceAs (DecidableEq (ℚ × ℚ × ℚ))

instance : AddCommMonoid Rgb := inferInstanceAs (AddCommMonoid (ℚ × ℚ × ℚ))

instance : Module ℚ Rgb := inferInstanceAs (Module ℚ (ℚ × ℚ × ℚ))

/-- `Rgba(rgb, alpha)` constructor used at the density-estimation add in
`ImageFilm::flush`. -/
def Rgba.ofRgb (c : Rgb) (alpha : ℚ) : Rgba := (c.1, c.2.1, c.2.2, alpha)

/-- The RGB part of an RGBA color (the `Rgb(Rgba)` narrowing used when
the edge generators read the normal layers). -/
def Rgba.rgb (c : Rgba) : Rgb := (Rgba.r c, Rgba.g c, Rgba.b c)

/-- The greyscale color `Rgb(v)` that the edge generators store
(`Rgb col_edge = Rgb(image_mat...)`), widened to RGBA on `setColor`
(`color/color.h` is not part of the snapshot; its `Rgba(Rgb)`
conversion is modelled with alpha 1). -/
def grayRgba (v : ℚ) : Rgba := Rgba.mk v v v 1

/-- Modelled from the spec (`color/color.h` is not part of the snapshot):
normalized color = accumulated color / accumulated weight; the color is
left at zero when the weight is zero. -/
def Rgba.normalized (c : Rgba) (weight : ℚ) : Rgba :=
  if weight ≠ 0 then (1 / weight) • c else 0

/-- Modelled from the spec (`color/color.h` is not part of the snapshot):
proportional clamp of the RGB components to the configured sample clamp
value; disabled when the clamp value is not positive.  Alpha is kept. -/
def Rgba.clampProportionalRgb (c : Rgba) (maxValue : ℚ) : Rgba :=
  if 0 < maxValue then
    let m := max (Rgba.r c) (max (Rgba.g c) (Rgba.b c))
    if maxValue < m then
      Rgba.mk (Rgba.r c * maxValue / m) (Rgba.g c * maxValue / m)
        (Rgba.b c * maxValue / m) (Rgba.a c)
    else c
  else c

/-- Modelled from the spec (`color/color.h` is not part of the snapshot):
the perceptual color-difference metric used by the adaptive-sampling
controller; it is zero on equal colors. -/
def Rgba.colorDifference (c d : Rgba) (_detectColorNoise : Bool) : ℚ :=
  max |Rgba.r c - Rgba.r d| (max |Rgba.g c - Rgba.g d| |Rgba.b c - Rgba.b d|)

/-- Modelled from the spec (`color/color.h` is not part of the snapshot):
brightness of the absolute color, used for dark-region threshold scaling. -/
def Rgba.abscol2Bri (c : Rgba) : ℚ :=
  (|Rgba.r c| + |Rgba.g c| + |Rgba.b c|) / 3

/-- Modelled from the spec (`color/color.h` is not part of the snapshot):
component-wise ceiling, used on the index layers "to correct the
antialiasing and ceil the mixed values to the upper integer". -/
def Rgba.ceilColor (c : Rgba) : Rgba :=
  Rgba.mk (⌈Rgba.r c⌉ : ℤ) (⌈Rgba.g c⌉ : ℤ) (⌈Rgba.b c⌉ : ℤ) (⌈Rgba.a c⌉ : ℤ)

/-- `math::floorToInt` (`math/interpolation.h` is not part of the
snapshot): the floor, written out as `num / den` so that it evaluates
on closed rationals. -/
def floorToInt (d : ℚ) : ℤ := d.num / (d.den : ℤ)

/-- `math::roundToInt`: round to the nearest integer. -/
def roundToInt (d : ℚ) : ℤ := floorToInt (d + 1 / 2)

/-- The ceiling, written out so that it evaluates on closed
rationals. -/
def ceilToInt (d : ℚ) : ℤ := -floorToInt (-d)

/-- `FILTER_TABLE_SIZE` (`filter_table_size_global = 16`). -/
def filterTableSize : ℕ := 16

/-- `MAX_FILTER_SIZE` (`max_filter_size_global = 8`). -/
def maxFilterSize : ℕ := 8

/-- The AA filter kinds of `ImageFilm::FilterType`. -/
inductive FilterType
  | box
  | mitchell
  | gauss
  | lanczos
deriving DecidableEq, Repr

/-- The render-layer identifiers that `ImageFilm` treats specially,
plus a catch-all for the remaining `Layer::Type` values. -/
inductive LayerType
  | combined
  | aaSamples
  | objIndexAbs
  | objIndexAutoAbs
  | matIndexAbs
  | matIndexAutoAbs
  | debugSamplingFactor
  | normalGeom
  | normalSmooth
  | zDepthNorm
  | debugFacesEdges
  | debugObjectsEdges
  | toon
  | other (n : ℕ)
deriving DecidableEq, Repr

/-- `AaNoiseParams::DarkDetectionType`. -/
inductive DarkDetectionType
  | none
  | linear
  | curve
deriving DecidableEq, Repr

/-- A 2D accumulation buffer, indexed by 0-based buffer coordinates. -/
def Grid (α : Type) : Type := ℤ → ℤ → α

/-- `RenderArea`: outer bounds plus the inner sample region. -/
structure RenderArea where
  x : ℤ
  y : ℤ
  w : ℤ
  h : ℤ
  sx0 : ℤ
  sx1 : ℤ
  sy0 : ℤ
  sy1 : ℤ
deriving DecidableEq, Repr

/-- The `ImageFilm` state: the fields of the C++ class that the
embedding needs, with their source names.  I/O-only collaborators
(progress bar, outputs, mutexes, timers) are omitted; the splitter is
modelled by the list of areas it would hand out. -/
structure ImageFilm where
  width_ : ℤ
  height_ : ℤ
  cx_0_ : ℤ
  cx_1_ : ℤ
  cy_0_ : ℤ
  cy_1_ : ℤ
  filterw_ : ℚ
  table_scale_ : ℚ
  filter_table_ : ℕ → ℚ
  weights_ : Grid ℚ
  image_layers_ : List (LayerType × Grid Rgba)
  flags_ : Grid Bool
  aa_threshold_ : ℚ
  aa_dark_detection_type_ : DarkDetectionType
  aa_dark_threshold_factor_ : ℚ
  aa_detect_color_noise_ : Bool
  aa_variance_edge_size_ : ℤ
  aa_variance_pixels_ : ℤ
  aa_clamp_samples_ : ℚ
  background_resampling_ : Bool
  sampling_factor_image_ : Option (Grid ℚ)
  n_pass_ : ℤ
  n_passes_ : ℤ
  next_area_ : ℤ
  area_cnt_ : ℤ
  completed_cnt_ : ℤ
  split_ : Bool
  abort_ : Bool
  splitter_areas_ : List RenderArea
  computer_node_ : ℕ
  base_sampling_offset_ : ℕ
  sampling_offset_ : ℕ
  estimate_density_ : Bool
  density_image_ : Grid Rgb
  num_density_samples_ : ℤ
  images_auto_save_pass_counter_ : ℤ
  film_auto_save_pass_counter_ : ℤ

/-- The filter half-width computed by the `ImageFilm` constructor:
`filterw_ = filter_size * 0.5`, widened by `2.6` for Mitchell and `2.0`
for Gauss, then clamped by
`std::min(std::max(0.501f, filterw_), 0.5f * max_filter_size_global)`. -/
def computeFilterw (filterSize : ℚ) (filt : FilterType) : ℚ :=
  let w : ℚ := filterSize * (1 / 2)
  let w : ℚ :=
    match filt with
    | FilterType.mitchell => w * (26 / 10)
    | FilterType.gauss => w * 2
    | _ => w
  min (max (501 / 1000) w) ((1 / 2) * (maxFilterSize : ℚ))

/-- The filter lookup table filled by the constructor:
entry `y * 16 + x` holds `ffunc((x + 0.5) * scale, (y + 0.5) * scale)`
with `scale = 1 / 16`.  The filter functions themselves live in
`math/filter.h` (not in the snapshot), so the function is a parameter. -/
def mkFilterTable (ffunc : ℚ → ℚ → ℚ) : ℕ → ℚ :=
  fun idx =>
    ffunc (((idx % filterTableSize : ℕ) + 1 / 2) * (1 / (filterTableSize : ℚ)))
      (((idx / filterTableSize : ℕ) + 1 / 2) * (1 / (filterTableSize : ℚ)))

/-- The `ImageFilm` constructor (`imagefilm.cc:133-187`): records the
geometry, computes `filterw_`, fills the filter table once, sets
`table_scale_ = 0.9999 * FILTER_TABLE_SIZE / filterw_` and
`area_cnt_ = 0`, and starts with cleared buffers. -/
def mkImageFilm (width height xstart ystart : ℤ) (filterSize : ℚ)
    (filt : FilterType) (ffunc : ℚ → ℚ → ℚ)
    (layerTypes : List LayerType) : ImageFilm :=
  let fw := computeFilterw filterSize filt
  { width_ := width
    height_ := height
    cx_0_ := xstart
    cx_1_ := xstart + width
    cy_0_ := ystart
    cy_1_ := ystart + height
    filterw_ := fw
    table_scale_ := (9999 / 10000) * (filterTableSize : ℚ) / fw
    filter_table_ := mkFilterTable ffunc
    weights_ := fun _ _ => 0
    image_layers_ := layerTypes.map (fun t => (t, fun _ _ => (0 : Rgba)))
    flags_ := fun _ _ => false
    aa_threshold_ := 0
    aa_dark_detection_type_ := DarkDetectionType.none
    aa_dark_threshold_factor_ := 0
    aa_detect_color_noise_ := false
    aa_variance_edge_size_ := 10
    aa_variance_pixels_ := 0
    aa_clamp_samples_ := 0
    background_resampling_ := true
    sampling_factor_image_ := Option.none
    n_pass_ := 0
    n_passes_ := 0
    next_area_ := 0
    area_cnt_ := 0
    completed_cnt_ := 0
    split_ := true
    abort_ := false
    splitter_areas_ := []
    computer_node_ := 0
    base_sampling_offset_ := 0
    sampling_offset_ := 0
    estimate_density_ := false
    density_image_ := fun _ _ => (0 : Rgb)
    num_density_samples_ := 0
    images_auto_save_pass_counter_ := 0
    film_auto_save_pass_counter_ := 0 }

/-- Inclusive integer range `[a, b]`, the index set of a
`for(int i = a; i <= b; ++i)` loop. -/
def intRange (a b : ℤ) : List ℤ :=
  (List.range (b + 1 - a).toNat).map (fun k : ℕ => a + (k : ℤ))

/-- `dx_0 = std::max(cx_0_ - x, roundToInt(dx - filterw_))`. -/
def ImageFilm.sampleDx0 (f : ImageFilm) (x : ℤ) (dx : ℚ) : ℤ :=
  max (f.cx_0_ - x) (roundToInt (dx - f.filterw_))

/-- `dx_1 = std::min(cx_1_ - x - 1, roundToInt(dx + filterw_ - 1.0))`. -/
def ImageFilm.sampleDx1 (f : ImageFilm) (x : ℤ) (dx : ℚ) : ℤ :=
  min (f.cx_1_ - x - 1) (roundToInt (dx + f.filterw_ - 1))

/-- `dy_0 = std::max(cy_0_ - y, roundToInt(dy - filterw_))`. -/
def ImageFilm.sampleDy0 (f : ImageFilm) (y : ℤ) (dy : ℚ) : ℤ :=
  max (f.cy_0_ - y) (roundToInt (dy - f.filterw_))

/-- `dy_1 = std::min(cy_1_ - y - 1, roundToInt(dy + filterw_ - 1.0))`. -/
def ImageFilm.sampleDy1 (f : ImageFilm) (y : ℤ) (dy : ℚ) : ℤ :=
  min (f.cy_1_ - y - 1) (roundToInt (dy + f.filterw_ - 1))

/-- The filter-table index stored in `x_index`/`y_index`:
`floorToInt(std::abs((i - offs) * table_scale_))`, where `i` is the
pixel coordinate relative to the sample pixel (`i - x`) and
`offs = dx - 0.5`. -/
def ImageFilm.filterIndex (f : ImageFilm) (offs : ℚ) (i : ℤ) : ℕ :=
  (floorToInt |((i : ℚ) - offs) * f.table_scale_|).toNat

/-- The filter-table offset
`y_index[j - y_0] * FILTER_TABLE_SIZE + x_index[i - x_0]` of the
accumulation loop, for the absolute pixel `p` of a sample at `(x, y)`
with sub-pixel offsets `(dx, dy)`. -/
def ImageFilm.tableOffset (f : ImageFilm) (x y : ℤ) (dx dy : ℚ)
    (p : ℤ × ℤ) : ℕ :=
  f.filterIndex (dy - 1 / 2) (p.2 - y) * filterTableSize +
    f.filterIndex (dx - 1 / 2) (p.1 - x)

/-- The filter weight `filter_table_[offset]` a sample contributes at
the absolute pixel `p`. -/
def ImageFilm.tableWeight (f : ImageFilm) (x y : ℤ) (dx dy : ℚ)
    (p : ℤ × ℤ) : ℚ :=
  f.filter_table_ (f.tableOffset x y dx dy p)

/-- The absolute pixels `(i, j)` visited by the accumulation loop of
`addSample`: `j` from `y_0` to `y_1` (outer), `i` from `x_0` to `x_1`
(inner), with `x_0 = x + dx_0` and so on. -/
def ImageFilm.supportPts (f : ImageFilm) (x y : ℤ) (dx dy : ℚ) :
    List (ℤ × ℤ) :=
  (intRange (y + f.sampleDy0 y dy) (y + f.sampleDy1 y dy)).flatMap
    (fun j =>
      (intRange (x + f.sampleDx0 x dx) (x + f.sampleDx1 x dx)).map
        (fun i => (i, j)))

/-- The layer color taken from the per-sample `ColorLayers` (zero when
the sample carries none), after `clampProportionalRgb`. -/
def clampedLayerColor (colorLayers : Option (LayerType → Rgba))
    (clampSamples : ℚ) (t : LayerType) : Rgba :=
  (match colorLayers with
   | Option.some cl => cl t
   | Option.none => (0 : Rgba)).clampProportionalRgb clampSamples

/-- One iteration of the accumulation loop of `addSample` at the
absolute pixel `p`: add the filter weight to the weight accumulator at
`(i - cx_0_, j - cy_0_)` and, for every layer, the clamped sample color
times the filter weight to the layer accumulator. -/
def ImageFilm.splatStep (f : ImageFilm) (x y : ℤ) (dx dy : ℚ)
    (colorLayers : Option (LayerType → Rgba)) (g : ImageFilm)
    (p : ℤ × ℤ) : ImageFilm :=
  let wt := f.tableWeight x y dx dy p
  { g with
    weights_ := fun a b =>
      if a = p.1 - f.cx_0_ ∧ b = p.2 - f.cy_0_ then g.weights_ a b + wt
      else g.weights_ a b
    image_layers_ := g.image_layers_.map (fun l =>
      let col := clampedLayerColor colorLayers f.aa_clamp_samples_ l.1
      (l.1, fun a b =>
        if a = p.1 - f.cx_0_ ∧ b = p.2 - f.cy_0_ then l.2 a b + wt • col
        else l.2 a b)) }

/-- `ImageFilm::addSample` (`imagefilm.cc:715-772`): clamp the filter
extent to the crop window, then splat the (clamped) sample color into
every pixel of the filter support with the precomputed filter-table
weights. -/
def ImageFilm.addSample (f : ImageFilm) (x y : ℤ) (dx dy : ℚ)
    (colorLayers : Option (LayerType → Rgba)) : ImageFilm :=
  (f.supportPts x y dx dy).foldl (f.splatStep x y dx dy colorLayers) f

/-- One `addSample` call, for stating properties of call sequences. -/
structure SampleCall where
  x : ℤ
  y : ℤ
  dx : ℚ
  dy : ℚ
  colorLayers : Option (LayerType → Rgba)

/-- Run a sequence of `addSample` calls. -/
def ImageFilm.addSamples (f : ImageFilm) (calls : List SampleCall) :
    ImageFilm :=
  calls.foldl (fun g c => g.addSample c.x c.y c.dx c.dy c.colorLayers) f

/-- The filter-table weight a call contributes to the buffer pixel
`(px, py)` (absolute pixel `(px + cx_0_, py + cy_0_)`): the table weight
when that pixel lies in the call's filter support, and `0` otherwise. -/
def ImageFilm.callFilterWeight (f : ImageFilm) (c : SampleCall)
    (px py : ℤ) : ℚ :=
  if (px + f.cx_0_, py + f.cy_0_) ∈ f.supportPts c.x c.y c.dx c.dy then
    f.tableWeight c.x c.y c.dx c.dy (px + f.cx_0_, py + f.cy_0_)
  else 0

/-- The clamped sample color a call carries for a given layer. -/
def SampleCall.clampedColor (c : SampleCall) (clampSamples : ℚ)
    (t : LayerType) : Rgba :=
  clampedLayerColor c.colorLayers clampSamples t

/-- Row-major enumeration of a `w × h` pixel rectangle: `y` outer from
`0` to `h - 1`, `x` inner from `0` to `w - 1` — the index sequence of
the `for(y) for(x)` loops of the source. -/
def rectList {α : Type} (w h : ℕ) (g : ℕ → ℕ → α) : List α :=
  (List.range h).flatMap (fun y => (List.range w).map (fun x => g x y))

/-- The fields written to / read from a film checkpoint file.  The
`File` binary helpers of `common/file.h` are not part of the snapshot;
the file is modelled from the spec layout as the sequence of typed
fields, in order. -/
inductive FilmToken
  | str (s : String)
  | u32 (n : ℕ)
  | i32 (n : ℤ)
  | f32 (q : ℚ)
deriving DecidableEq, Repr

/-- The four `f32` fields `(r, g, b, a)` appended per pixel color. -/
def rgbaTokens (cs : List Rgba) : List FilmToken :=
  cs.flatMap (fun c =>
    [FilmToken.f32 (Rgba.r c), FilmToken.f32 (Rgba.g c),
     FilmToken.f32 (Rgba.b c), FilmToken.f32 (Rgba.a c)])

/-- `ImageFilm::imageFilmSave` (`imagefilm.cc:1061-1143`): the header
string, the three `u32` sampling fields, the seven `i32` geometry and
layer-count fields, then the per-pixel weights row-major and, for each
layer in order, the per-pixel RGBA colors row-major.  The internal
buffer dimensions always equal the film dimensions in this model, so
the dimension-consistency warnings of the source cannot fire and the
function returns the token list alone. -/
def ImageFilm.imageFilmSave (f : ImageFilm) : List FilmToken :=
  [FilmToken.str "YAF_FILMv4_0_0",
   FilmToken.u32 f.computer_node_,
   FilmToken.u32 f.base_sampling_offset_,
   FilmToken.u32 f.sampling_offset_,
   FilmToken.i32 f.width_,
   FilmToken.i32 f.height_,
   FilmToken.i32 f.cx_0_,
   FilmToken.i32 f.cx_1_,
   FilmToken.i32 f.cy_0_,
   FilmToken.i32 f.cy_1_,
   FilmToken.i32 (f.image_layers_.length : ℤ)] ++
  (rectList f.width_.toNat f.height_.toNat
    (fun x y => f.weights_ (x : ℤ) (y : ℤ))).map FilmToken.f32 ++
  f.image_layers_.flatMap (fun l =>
    rgbaTokens (rectList f.width_.toNat f.height_.toNat
      (fun x y => l.2 (x : ℤ) (y : ℤ))))

/-- Read one string field. -/
def readStr : List FilmToken → Option (String × List FilmToken)
  | FilmToken.str s :: ts => Option.some (s, ts)
  | _ => Option.none

/-- Read one `u32` field. -/
def readU32 : List FilmToken → Option (ℕ × List FilmToken)
  | FilmToken.u32 n :: ts => Option.some (n, ts)
  | _ => Option.none

/-- Read one `i32` field. -/
def readI32 : List FilmToken → Option (ℤ × List FilmToken)
  | FilmToken.i32 n :: ts => Option.some (n, ts)
  | _ => Option.none

/-- Read one `f32` field. -/
def readF32 : List FilmToken → Option (ℚ × List FilmToken)
  | FilmToken.f32 q :: ts => Option.some (q, ts)
  | _ => Option.none

/-- Read `n` consecutive `f32` fields. -/
def readF32s : ℕ → List FilmToken → Option (List ℚ × List FilmToken)
  | 0, ts => Option.some ([], ts)
  | n + 1, ts => do
    let (q, ts) ← readF32 ts
    let (qs, ts) ← readF32s n ts
    pure (q :: qs, ts)

/-- Read `n` consecutive RGBA pixels (`r`, `g`, `b`, `a` each). -/
def readRgbas : ℕ → List FilmToken → Option (List Rgba × List FilmToken)
  | 0, ts => Option.some ([], ts)
  | n + 1, ts => do
    let (r, ts) ← readF32 ts
    let (g, ts) ← readF32 ts
    let (b, ts) ← readF32 ts
    let (a, ts) ← readF32 ts
    let (cs, ts) ← readRgbas n ts
    pure (Rgba.mk r g b a :: cs, ts)

/-- Read the per-layer pixel blocks of the load loop, one `h × w` block
of RGBA pixels per in-memory layer, pairing each block with the
corresponding in-memory layer's type. -/
def readLayerGrids (w h : ℤ) :
    List (LayerType × Grid Rgba) → List FilmToken →
    Option (List (LayerType × Grid Rgba) × List FilmToken)
  | [], ts => Option.some ([], ts)
  | l :: ls, ts => do
    let (cs, ts) ← readRgbas (h.toNat * w.toNat) ts
    let (rest, ts) ← readLayerGrids w h ls ts
    pure ((l.1, fun x y => cs.getD (y * w + x).toNat 0) :: rest, ts)

/-- The film after the three sampling fields are read from the
checkpoint (`file.read` into `computer_node_`, `base_sampling_offset_`
and `sampling_offset_`), which the source does before any dimension
check. -/
def ImageFilm.withOffsets (f : ImageFilm) (cn bso so : ℕ) : ImageFilm :=
  { f with computer_node_ := cn, base_sampling_offset_ := bso,
           sampling_offset_ := so }

/-- The film after the per-pixel weight loop of `imageFilmLoad` has
read the weight grid. -/
def ImageFilm.withWeights (f : ImageFilm) (w : Grid ℚ) : ImageFilm :=
  { f with weights_ := w }

/-- The film after the per-layer loop of `imageFilmLoad` has read the
layer colors. -/
def ImageFilm.withLayers (f : ImageFilm)
    (ls : List (LayerType × Grid Rgba)) : ImageFilm :=
  { f with image_layers_ := ls }

/-- `ImageFilm::imageFilmLoad` (`imagefilm.cc:872-979`): open the file
(`none` models a missing file), check the header string, read the
`computer_node_`, `base_sampling_offset_` and `sampling_offset_` fields
into the film, then check width, height, the four crop bounds and the
layer count against the film, failing on the first mismatch; only after
all checks pass are the weights and the per-layer colors read into the
film's buffers.  A truncated read is modelled as failure (the source's
`File::read` behavior past end-of-file is outside the snapshot; the
source assigns the three sampling fields one read at a time, observably
different from this single assignment only on such truncated files). -/
def ImageFilm.imageFilmLoad (f : ImageFilm)
    (file : Option (List FilmToken)) : Bool × ImageFilm :=
  match file with
  | Option.none => (false, f)
  | Option.some ts =>
    match readStr ts with
    | Option.none => (false, f)
    | Option.some (header, ts) =>
      if header ≠ "YAF_FILMv4_0_0" then (false, f) else
      match readU32 ts with
      | Option.none => (false, f)
      | Option.some (cn, ts) =>
        match readU32 ts with
        | Option.none => (false, { f with computer_node_ := cn })
        | Option.some (bso, ts) =>
          match readU32 ts with
          | Option.none =>
            (false, { f with computer_node_ := cn, base_sampling_offset_ := bso })
          | Option.some (so, ts) =>
            let f1 := f.withOffsets cn bso so
            match readI32 ts with
            | Option.none => (false, f1)
            | Option.some (w, ts) =>
              if w ≠ f1.width_ then (false, f1) else
              match readI32 ts with
              | Option.none => (false, f1)
              | Option.some (h, ts) =>
                if h ≠ f1.height_ then (false, f1) else
                match readI32 ts with
                | Option.none => (false, f1)
                | Option.some (cx0, ts) =>
                  if cx0 ≠ f1.cx_0_ then (false, f1) else
                  match readI32 ts with
                  | Option.none => (false, f1)
                  | Option.some (cx1, ts) =>
                    if cx1 ≠ f1.cx_1_ then (false, f1) else
                    match readI32 ts with
                    | Option.none => (false, f1)
                    | Option.some (cy0, ts) =>
                      if cy0 ≠ f1.cy_0_ then (false, f1) else
                      match readI32 ts with
                      | Option.none => (false, f1)
                      | Option.some (cy1, ts) =>
                        if cy1 ≠ f1.cy_1_ then (false, f1) else
                        match readI32 ts with
                        | Option.none => (false, f1)
                        | Option.some (nl, ts) =>
                          if nl ≠ (f1.image_layers_.length : ℤ) then
                            (false, f1)
                          else
                            match readF32s
                                (f1.height_.toNat * f1.width_.toNat) ts with
                            | Option.none => (false, f1)
                            | Option.some (ws, ts) =>
                              let f2 := f1.withWeights (fun x y =>
                                ws.getD (y * f1.width_ + x).toNat 0)
                              match readLayerGrids f2.width_ f2.height_
                                  f2.image_layers_ ts with
                              | Option.none => (false, f2)
                              | Option.some (ls, _) =>
                                (true, f2.withLayers ls)

/-- The context of one `flush` call: the flag bits `RegularImage` and
`Densityimage`, plus the OpenCV image kernels the edge generators
apply.  `generateDebugFacesEdges` and `generateToonAndDebugObjectEdges`
build their input mats from the film's buffers and then run
`edgeImageDetection_global` (`imagefilm.cc:1154-1201`) and the toon
blur/quantize/blend pipeline, whose arithmetic consists of
`cv::Laplacian`, `cv::resize`, `cv::GaussianBlur` and the
`color/color.h` HSV and blend helpers — none of which are part of the
snapshot.  Those kernels enter the model as the function fields below,
applied to the faithfully built inputs: `facesEdge` and `objectsEdge`
are the edge detection on a normal-color grid and a depth grid (with
the face resp. object edge parameters), `toonPost` the
blur/quantize/blur post-processing of the Combined image, and
`toonBlend` the blend of a toon color with the configured toon edge
color by an edge value. -/
structure FlushParts where
  regularImage : Bool
  densityimage : Bool
  facesEdge : Grid Rgb → Grid ℚ → Grid ℚ
  objectsEdge : Grid Rgb → Grid ℚ → Grid ℚ
  toonPost : Grid Rgb → Grid Rgb
  toonBlend : Rgb → ℚ → Rgb

/-- Whether the film holds a layer of the given type
(`layers_.getLayersWithImages().isDefined(...)`; the model's layer list
is exactly the list of layers with images). -/
def ImageFilm.hasLayer (f : ImageFilm) (t : LayerType) : Bool :=
  f.image_layers_.any (fun l => l.1 = t)

/-- The image buffer of the layer of the given type
(`image_layers_(type).image_`), zero when the film has no such
layer. -/
def ImageFilm.layerGrid (f : ImageFilm) (t : LayerType) : Grid Rgba :=
  match f.image_layers_.find? (fun l => l.1 = t) with
  | Option.some l => l.2
  | Option.none => fun _ _ => 0

/-- Overwrite the buffer of the layer of the given type (what the edge
generators' `setColor` loops over the whole image amount to). -/
def ImageFilm.setLayer (f : ImageFilm) (t : LayerType) (g0 : Grid Rgba) :
    ImageFilm :=
  { f with image_layers_ :=
      f.image_layers_.map (fun l => if l.1 = t then (l.1, g0) else l) }

/-- The weight-normalized color grid of a layer, narrowed to RGB
(`image.getColor(i, j).normalized(weight)` read as `Rgb`): the input
mats the edge generators build. -/
def ImageFilm.normalMat (f : ImageFilm) (t : LayerType) : Grid Rgb :=
  fun i j => ((f.layerGrid t i j).normalized (f.weights_ i j)).rgb

/-- The weight-normalized depth grid
(`z_depth_image.getColor(i, j).normalized(weight).a_`). -/
def ImageFilm.depthMat (f : ImageFilm) : Grid ℚ :=
  fun i j =>
    Rgba.a ((f.layerGrid LayerType.zDepthNorm i j).normalized
      (f.weights_ i j))

/-- The greyscale grid `generateDebugFacesEdges` writes into the
DebugFacesEdges layer: the face-edge detection applied to the
weight-normalized NormalGeom and ZDepthNorm mats. -/
def facesEdgeGrid (parts : FlushParts) (f : ImageFilm) : Grid Rgba :=
  fun i j =>
    grayRgba (parts.facesEdge (f.normalMat LayerType.normalGeom)
      f.depthMat i j)

/-- The greyscale grid `generateToonAndDebugObjectEdges` writes into
the DebugObjectsEdges layer: the object-edge detection applied to the
weight-normalized NormalSmooth and ZDepthNorm mats. -/
def objectsEdgeGrid (parts : FlushParts) (f : ImageFilm) : Grid Rgba :=
  fun i j =>
    grayRgba (parts.objectsEdge (f.normalMat LayerType.normalSmooth)
      f.depthMat i j)

/-- The grid `generateToonAndDebugObjectEdges` writes into the Toon
layer: the post-processed weight-normalized Combined color blended
with the configured toon edge color by the object-edge value. -/
def toonGrid (parts : FlushParts) (f : ImageFilm) : Grid Rgba :=
  fun i j =>
    Rgba.ofRgb
      (parts.toonBlend (parts.toonPost (f.normalMat LayerType.combined) i j)
        (parts.objectsEdge (f.normalMat LayerType.normalSmooth)
          f.depthMat i j)) 1

/-- `ImageFilm::generateDebugFacesEdges` (`imagefilm.cc:1203-1243`,
OpenCV build): when the NormalGeom and ZDepthNorm images exist,
overwrite the DebugFacesEdges layer with the greyscale edge image the
OpenCV pipeline computes from the weight-normalized NormalGeom colors
and ZDepthNorm depths; otherwise do nothing.  The pipeline itself is
the `facesEdge` field of the flush context. -/
def ImageFilm.generateDebugFacesEdges (f : ImageFilm)
    (parts : FlushParts) : ImageFilm :=
  if f.hasLayer LayerType.normalGeom ∧ f.hasLayer LayerType.zDepthNorm then
    f.setLayer LayerType.debugFacesEdges (facesEdgeGrid parts f)
  else f

/-- `ImageFilm::generateToonAndDebugObjectEdges`
(`imagefilm.cc:1245-1337`, OpenCV build): when the NormalSmooth and
ZDepthNorm images exist, overwrite the DebugObjectsEdges layer with the
greyscale object-edge image computed from the weight-normalized
NormalSmooth colors and ZDepthNorm depths, and the Toon layer with the
post-processed weight-normalized Combined color blended with the toon
edge color by the edge value; otherwise do nothing.  The OpenCV
pipelines are the `objectsEdge`, `toonPost` and `toonBlend` fields of
the flush context. -/
def ImageFilm.generateToonAndDebugObjectEdges (f : ImageFilm)
    (parts : FlushParts) : ImageFilm :=
  if f.hasLayer LayerType.normalSmooth ∧ f.hasLayer LayerType.zDepthNorm then
    (f.setLayer LayerType.debugObjectsEdges
      (objectsEdgeGrid parts f)).setLayer LayerType.toon (toonGrid parts f)
  else f

/-- The buffer effect of `ImageFilm::flush` (`imagefilm.cc:617-624`):
regenerate the DebugFacesEdges layer when it is defined and the
DebugObjectsEdges and Toon layers when either is defined. -/
def ImageFilm.flushFilm (f : ImageFilm) (parts : FlushParts) : ImageFilm :=
  let f :=
    if f.hasLayer LayerType.debugFacesEdges then
      f.generateDebugFacesEdges parts
    else f
  if f.hasLayer LayerType.debugObjectsEdges ∨ f.hasLayer LayerType.toon
  then f.generateToonAndDebugObjectEdges parts
  else f

/-- Whether a layer type is one of the four absolute index layers that
`flush` and `finishArea` post-process with a ceiling. -/
def LayerType.isAbsIndex : LayerType → Bool
  | LayerType.objIndexAbs => true
  | LayerType.objIndexAutoAbs => true
  | LayerType.matIndexAbs => true
  | LayerType.matIndexAutoAbs => true
  | _ => false

/-- The color `ImageFilm::flush` hands to `putPixel` for one layer at
buffer pixel `(i, j)`: the accumulator normalized by the weight, with
the index layers ceiled, non-regular flushes zeroed, and the density
image added onto the combined layer when density estimation is on. -/
def ImageFilm.flushColor (f : ImageFilm) (parts : FlushParts)
    (densityFactor : ℚ) (l : LayerType × Grid Rgba) (i j : ℤ) : Rgba :=
  let weight := f.weights_ i j
  let c :=
    if l.1 = LayerType.aaSamples then (l.2 i j).normalized weight
    else if l.1.isAbsIndex then ((l.2 i j).normalized weight).ceilColor
    else if parts.regularImage then (l.2 i j).normalized weight
    else (0 : Rgba)
  if f.estimate_density_ ∧ parts.densityimage ∧ l.1 = LayerType.combined ∧
      0 < densityFactor then
    c + Rgba.ofRgb (densityFactor • f.density_image_ i j) 0
  else c

/-- `ImageFilm::flush` (`imagefilm.cc:604-705`): compute the density
factor, regenerate the DebugFacesEdges layer when it is defined and the
DebugObjectsEdges and Toon layers when either is defined
(`imagefilm.cc:617-624`), then for every pixel in row-major order emit
the per-layer normalized colors of the resulting film to the outputs.
The function returns the film after the regeneration together with the
sequence of `putPixel(i, j, colorLayers)` calls it makes; the weight
accumulator and the layers other than the three regenerated ones are
only read. -/
def ImageFilm.flush (f : ImageFilm) (parts : FlushParts) :
    ImageFilm × List (ℤ × ℤ × List (LayerType × Rgba)) :=
  let densityFactor : ℚ :=
    if f.estimate_density_ ∧ 0 < f.num_density_samples_ then
      ((f.width_ * f.height_ : ℤ) : ℚ) / ((f.num_density_samples_ : ℤ) : ℚ)
    else 0
  let f := f.flushFilm parts
  (f,
   rectList f.width_.toNat f.height_.toNat (fun i j =>
     ((i : ℤ), (j : ℤ),
      f.image_layers_.map (fun l =>
        (l.1, f.flushColor parts densityFactor l (i : ℤ) (j : ℤ))))))

/-- `ImageFilm::doMoreSamples` (`imagefilm.cc:707-710`):
`threshold_ <= 0 || flags_.get(x - cx_0_, y - cy_0_)`. -/
def ImageFilm.doMoreSamples (f : ImageFilm) (x y : ℤ) : Bool :=
  decide (f.aa_threshold_ ≤ 0) || f.flags_ (x - f.cx_0_) (y - f.cy_0_)

/-- `ImageFilm::darkThresholdCurveInterpolate` (`imagefilm.cc:844-860`). -/
def darkThresholdCurveInterpolate (pixelBrightness : ℚ) : ℚ :=
  if pixelBrightness ≤ 10 / 100 then 1 / 10000
  else if pixelBrightness ≤ 20 / 100 then
    1 / 10000 + (pixelBrightness - 10 / 100) * (10 / 10000 - 1 / 10000) / (10 / 100)
  else if pixelBrightness ≤ 30 / 100 then
    10 / 10000 + (pixelBrightness - 20 / 100) * (20 / 10000 - 10 / 10000) / (10 / 100)
  else if pixelBrightness ≤ 40 / 100 then
    20 / 10000 + (pixelBrightness - 30 / 100) * (35 / 10000 - 20 / 10000) / (10 / 100)
  else if pixelBrightness ≤ 50 / 100 then
    35 / 10000 + (pixelBrightness - 40 / 100) * (55 / 10000 - 35 / 10000) / (10 / 100)
  else if pixelBrightness ≤ 60 / 100 then
    55 / 10000 + (pixelBrightness - 50 / 100) * (75 / 10000 - 55 / 10000) / (10 / 100)
  else if pixelBrightness ≤ 70 / 100 then
    75 / 10000 + (pixelBrightness - 60 / 100) * (100 / 10000 - 75 / 10000) / (10 / 100)
  else if pixelBrightness ≤ 80 / 100 then
    100 / 10000 + (pixelBrightness - 70 / 100) * (150 / 10000 - 100 / 10000) / (10 / 100)
  else if pixelBrightness ≤ 90 / 100 then
    150 / 10000 + (pixelBrightness - 80 / 100) * (250 / 10000 - 150 / 10000) / (10 / 100)
  else if pixelBrightness ≤ 1 then
    250 / 10000 + (pixelBrightness - 90 / 100) * (400 / 10000 - 250 / 10000) / (10 / 100)
  else if pixelBrightness ≤ 120 / 100 then
    400 / 10000 + (pixelBrightness - 1) * (800 / 10000 - 400 / 10000) / (20 / 100)
  else if pixelBrightness ≤ 140 / 100 then
    800 / 10000 + (pixelBrightness - 120 / 100) * (950 / 10000 - 800 / 10000) / (20 / 100)
  else if pixelBrightness ≤ 180 / 100 then
    950 / 10000 + (pixelBrightness - 140 / 100) * (1000 / 10000 - 950 / 10000) / (40 / 100)
  else 1000 / 10000

/-- The accumulated Combined-layer color at a buffer pixel
(`image_layers_(Layer::Combined).image_->getColor(x, y)`). -/
def ImageFilm.combinedColor (f : ImageFilm) (x y : ℤ) : Rgba :=
  match f.image_layers_.find? (fun l => l.1 = LayerType.combined) with
  | Option.some l => l.2 x y
  | Option.none => 0

/-- Combined-layer color normalized by the pixel's weight, as the
adaptive-sampling checks read it. -/
def ImageFilm.normalizedCombined (f : ImageFilm) (x y : ℤ) : Rgba :=
  (f.combinedColor x y).normalized (f.weights_ x y)

/-- Set one resample flag. -/
def ImageFilm.setFlag (f : ImageFilm) (x y : ℤ) (v : Bool) : ImageFilm :=
  { f with flags_ := fun a b =>
      if a = x ∧ b = y then v else f.flags_ a b }

/-- The per-pixel threshold used by the adaptive checks
(`aa_thresh_scaled`): scaled linearly for dark regions when linear dark
detection with a positive factor is configured, taken from the
interpolation curve for curve dark detection, the raw threshold
otherwise. -/
def ImageFilm.threshScaled (f : ImageFilm) (pixColBri : ℚ) : ℚ :=
  if f.aa_dark_detection_type_ = DarkDetectionType.linear ∧
      0 < f.aa_dark_threshold_factor_ then
    f.aa_threshold_ * ((1 - f.aa_dark_threshold_factor_) +
      pixColBri * f.aa_dark_threshold_factor_)
  else if f.aa_dark_detection_type_ = DarkDetectionType.curve then
    darkThresholdCurveInterpolate pixColBri
  else f.aa_threshold_

/-- The windowed-variance block of the adaptive loop
(`imagefilm.cc:334-382`): count noisy horizontal and vertical
transitions in a window around `(x, y)` (indices clamped to the image)
and, when the count reaches `variance_pixels_`, flag the whole window. -/
def ImageFilm.varianceBlock (f : ImageFilm) (g : ImageFilm)
    (x y : ℤ) (aaThreshScaled : ℚ) : ImageFilm :=
  let vhe := f.aa_variance_edge_size_ / 2
  let varianceX :=
    ((intRange (-vhe) (vhe - 2)).filter (fun xd =>
      let xi := x + xd
      let xi := if xi < 0 then 0
        else if f.width_ - 1 ≤ xi then f.width_ - 2 else xi
      aaThreshScaled ≤
        Rgba.colorDifference (f.normalizedCombined xi y)
          (f.normalizedCombined (xi + 1) y)
          f.aa_detect_color_noise_)).length
  let varianceY :=
    ((intRange (-vhe) (vhe - 2)).filter (fun yd =>
      let yi := y + yd
      let yi := if yi < 0 then 0
        else if f.height_ - 1 ≤ yi then f.height_ - 2 else yi
      aaThreshScaled ≤
        Rgba.colorDifference (f.normalizedCombined x yi)
          (f.normalizedCombined x (yi + 1))
          f.aa_detect_color_noise_)).length
  if f.aa_variance_pixels_ ≤ (varianceX : ℤ) + (varianceY : ℤ) then
    ((intRange (-vhe) (vhe - 1)).flatMap (fun xd =>
      (intRange (-vhe) (vhe - 1)).map (fun yd => (xd, yd)))).foldl
      (fun g2 d =>
        let xi := x + d.1
        let xi := if xi < 0 then 0
          else if f.width_ ≤ xi then f.width_ - 1 else xi
        let yi := y + d.2
        let yi := if yi < 0 then 0
          else if f.height_ ≤ yi then f.height_ - 1 else yi
        g2.setFlag xi yi true) g
  else g

/-- One iteration of the adaptive flag-recomputation loop of
`ImageFilm::nextPass` (`imagefilm.cc:290-384`) at pixel `(x, y)` with
`x < width_ - 1` and `y < height_ - 1`: flag zero-weight pixels, skip
non-resampled material pixels, compare the normalized Combined color
against the three forward neighbors (and the backward diagonal), and
run the optional variance block.  The loop only ever sets flags; the
accumulators are read, never written.  All reads go through `f`, the
film at loop entry, whose buffers the loop body does not modify. -/
def ImageFilm.adaptiveStep (f : ImageFilm) (g : ImageFilm)
    (p : ℕ × ℕ) : ImageFilm :=
  let x : ℤ := p.1
  let y : ℤ := p.2
  let weight := f.weights_ x y
  let g := if weight ≤ 0 then g.setFlag x y true else g
  let skip : Bool :=
    match f.sampling_factor_image_ with
    | Option.some sfi =>
      let msf : ℚ := if weight = 0 then 0 else sfi x y / weight
      !f.background_resampling_ && decide (msf = 0)
    | Option.none => false
  if skip then g else
  let pixCol := f.normalizedCombined x y
  let aaThreshScaled := f.threshScaled pixCol.abscol2Bri
  let g :=
    if aaThreshScaled ≤
        pixCol.colorDifference (f.normalizedCombined (x + 1) y)
          f.aa_detect_color_noise_ then
      (g.setFlag x y true).setFlag (x + 1) y true
    else g
  let g :=
    if aaThreshScaled ≤
        pixCol.colorDifference (f.normalizedCombined x (y + 1))
          f.aa_detect_color_noise_ then
      (g.setFlag x y true).setFlag x (y + 1) true
    else g
  let g :=
    if aaThreshScaled ≤
        pixCol.colorDifference (f.normalizedCombined (x + 1) (y + 1))
          f.aa_detect_color_noise_ then
      (g.setFlag x y true).setFlag (x + 1) (y + 1) true
    else g
  let g :=
    if 0 < x ∧ aaThreshScaled ≤
        pixCol.colorDifference (f.normalizedCombined (x - 1) (y + 1))
          f.aa_detect_color_noise_ then
      (g.setFlag x y true).setFlag (x - 1) (y + 1) true
    else g
  if 0 < f.aa_variance_pixels_ then
    f.varianceBlock g x y aaThreshScaled
  else g

/-- `ImageFilm::nextPass` (`imagefilm.cc:237-451`), state effects only
(autosave, output and logging side effects are I/O): reset the tile
counter, advance the pass counters, and — unless the pass is skipped —
rewrite the resample flags.  In adaptive mode with a positive noise
threshold the flags are recomputed by the adaptive loop over the
`(width_ - 1) × (height_ - 1)` interior and the flagged pixels are
counted; otherwise every pixel is resampled and
`n_resample = height_ * width_`. -/
def ImageFilm.nextPass (f : ImageFilm) (adaptiveAa : Bool)
    (skipNrenderLayer : Bool) : ℤ × ImageFilm :=
  let f := { f with
    next_area_ := 0
    n_pass_ := f.n_pass_ + 1
    images_auto_save_pass_counter_ := f.images_auto_save_pass_counter_ + 1
    film_auto_save_pass_counter_ := f.film_auto_save_pass_counter_ + 1 }
  if skipNrenderLayer then (0, f) else
  let f :=
    if f.n_pass_ = 0 then { f with flags_ := fun _ _ => true }
    else { f with flags_ := fun _ _ => false }
  if adaptiveAa ∧ 0 < f.aa_threshold_ then
    let f :=
      (rectList (f.width_ - 1).toNat (f.height_ - 1).toNat
        (fun x y => (x, y))).foldl
        (fun g p => g.setFlag (p.1 : ℤ) (p.2 : ℤ) false) f
    let f :=
      (rectList (f.width_ - 1).toNat (f.height_ - 1).toNat
        (fun x y => (x, y))).foldl f.adaptiveStep f
    let n :=
      ((rectList f.width_.toNat f.height_.toNat (fun x y => (x, y))).filter
        (fun p => f.flags_ (p.1 : ℤ) (p.2 : ℤ))).length
    ((n : ℤ), f)
  else
    (f.height_ * f.width_, f)

/-- `ImageFilm::init` (`imagefilm.cc:189-235`), state effects only:
clear the layer buffers (and the density image), set up the area
counter (`area_cnt_ = splitter size` when tiled, `1` otherwise), clear
the abort flag and counters and set `n_pass_ = 1`.  The optional
checkpoint-folder reload and file backup are I/O driven by the
load/save mode and are outside this model. -/
def ImageFilm.init (f : ImageFilm) (numPasses : ℤ) : ImageFilm :=
  { f with
    image_layers_ := f.image_layers_.map (fun l => (l.1, fun _ _ => (0 : Rgba)))
    density_image_ := fun _ _ => (0 : Rgb)
    next_area_ := if f.split_ then 0 else f.next_area_
    area_cnt_ := if f.split_ then (f.splitter_areas_.length : ℤ) else 1
    abort_ := false
    completed_cnt_ := 0
    n_pass_ := 1
    n_passes_ := numPasses
    images_auto_save_pass_counter_ := 0
    film_auto_save_pass_counter_ := 0 }

/-- `ImageFilm::nextArea` (`imagefilm.cc:453-501`): in tiled mode take
the next splitter tile and inset its sample region by
`ceil(filterw_)`; in single-area mode deliver the whole image once —
but only while `area_cnt_` is zero — and bump `area_cnt_`. -/
def ImageFilm.nextArea (f : ImageFilm) : Option RenderArea × ImageFilm :=
  if f.abort_ then (Option.none, f) else
  let ifilterw : ℤ := ceilToInt f.filterw_
  if f.split_ then
    let n := f.next_area_
    let f := { f with next_area_ := n + 1 }
    match f.splitter_areas_[n.toNat]? with
    | Option.some a0 =>
      (Option.some { a0 with
        sx0 := a0.x + ifilterw
        sx1 := a0.x + a0.w - ifilterw
        sy0 := a0.y + ifilterw
        sy1 := a0.y + a0.h - ifilterw }, f)
    | Option.none => (Option.none, f)
  else
    if f.area_cnt_ ≠ 0 then (Option.none, f) else
    (Option.some
      { x := f.cx_0_
        y := f.cy_0_
        w := f.width_
        h := f.height_
        sx0 := f.cx_0_ + ifilterw
        sx1 := f.cx_0_ + f.width_ - ifilterw
        sy0 := f.cy_0_ + ifilterw
        sy1 := f.cy_0_ + f.height_ - ifilterw },
     { f with area_cnt_ := f.area_cnt_ + 1 })

/-- The default layer entry used when indexing the layer list. -/
def defaultLayer : LayerType × Grid Rgba :=
  (LayerType.other 0, fun _ _ => (0 : Rgba))

/-- The film with its resample flags blanked: two films with equal
`eraseFlags` agree on every field other than `flags_`.  The flag
recomputation loops of `nextPass` only ever write flags, which this
projection makes precise. -/
def ImageFilm.eraseFlags (f : ImageFilm) : ImageFilm :=
  { f with flags_ := fun _ _ => false }

/-- The film with its layer list blanked: two films with equal
`eraseLayers` agree on every field other than `image_layers_`.  The
edge generators of `flush` only ever rewrite layer buffers, which this
projection makes precise. -/
def ImageFilm.eraseLayers (f : ImageFilm) : ImageFilm :=
  { f with image_layers_ := [] }

/-- Blank the pass bookkeeping counters that `nextPass` advances. -/
def zeroPassCounters (f : ImageFilm) : ImageFilm :=
  { f with n_pass_ := 0, next_area_ := 0,
           images_auto_save_pass_counter_ := 0,
           film_auto_save_pass_counter_ := 0 }

/-- The film with flags and pass counters blanked: `nextPass` changes
nothing outside this frame. -/
def ImageFilm.passFrame (f : ImageFilm) : ImageFilm :=
  zeroPassCounters f.eraseFlags

/-- `math::filter::box` (`math/filter.h` is not part of the snapshot):
the box reconstruction filter is constantly `1` on its support, which
is all the table evaluates. -/
def boxFilterFunc : ℚ → ℚ → ℚ := fun _ _ => 1

/-- A concrete 2×2 film with a box filter of half-width 1 and a single
Combined layer, for evaluating the embedded operations on closed
inputs. -/
def testFilm : ImageFilm :=
  mkImageFilm 2 2 0 0 2 FilterType.box boxFilterFunc [LayerType.combined]

/-- `testFilm` with a positive noise threshold, for the adaptive
sampling claims. -/
def testFilmThr : ImageFilm := { testFilm with aa_threshold_ := 1 }

/-- `testFilm` in non-tiled single-area mode, for the `nextArea`
claims. -/
def nonSplitFilm : ImageFilm := { testFilm with split_ := false }

/-- An all-ones sample color map for concrete `addSample` calls. -/
def onesColorLayers : Option (LayerType → Rgba) :=
  Option.some (fun _ => Rgba.mk 1 1 1 1)

/-- A concrete centered sample call on `testFilm`. -/
def sampleCallA : SampleCall :=
  { x := 0, y := 0, dx := 1 / 2, dy := 1 / 2, colorLayers := onesColorLayers }

/-- A 2×2 film with recognizable per-pixel weights and layer colors,
for the checkpoint round-trip and layout claims. -/
def patternFilm : ImageFilm :=
  { testFilm with
    weights_ := fun x y => (x : ℚ) + 2 * (y : ℚ) + 1
    image_layers_ := [(LayerType.combined,
      fun x y => Rgba.mk ((x : ℚ)) ((y : ℚ)) 1 0)] }

/-- The film fields that determine where and with which weight a sample
splats: crop window, filter geometry, clamp value and filter table.
`addSample` reads them and never writes them. -/
def ImageFilm.filterCfg (f : ImageFilm) :
    (ℤ × ℤ × ℤ × ℤ) × (ℚ × ℚ × ℚ) × (ℕ → ℚ) :=
  ((f.cx_0_, f.cy_0_, f.cx_1_, f.cy_1_),
   (f.filterw_, f.table_scale_, f.aa_clamp_samples_),
   f.filter_table_)

/-- `floorToInt` is the floor. -/
theorem floorToInt_eq (d : ℚ) : floorToInt d = ⌊d⌋ := by
  rw [Rat.floor_def]
  rfl

/-- `roundToInt` is the floor of `d + 1/2`. -/
theorem roundToInt_eq (d : ℚ) : roundToInt d = ⌊d + 1 / 2⌋ := by
  rw [roundToInt, floorToInt_eq]

/-- `ceilToInt` is the ceiling. -/
theorem ceilToInt_eq (d : ℚ) : ceilToInt d = ⌈d⌉ := by
  rw [ceilToInt, floorToInt_eq, Int.floor_neg, neg_neg]

/-- Membership in the inclusive integer range. -/
theorem mem_intRange {a lo hi : ℤ} : a ∈ intRange lo hi ↔ lo ≤ a ∧ a ≤ hi := by
  simp only [intRange, List.mem_map, List.mem_range]
  constructor
  · rintro ⟨k, hk, rfl⟩
    omega
  · rintro ⟨h1, h2⟩
    exact ⟨(a - lo).toNat, by omega, by omega⟩

/-- The inclusive integer range has no duplicates. -/
theorem intRange_nodup (lo hi : ℤ) : (intRange lo hi).Nodup := by
  unfold intRange
  refine List.Nodup.map ?_ (List.nodup_range _)
  intro a b h
  have h2 : lo + (a : ℤ) = lo + (b : ℤ) := h
  omega

/-- The row-major rectangle enumeration has no duplicates. -/
theorem rectPairs_nodup (js is : List ℤ) (hjs : js.Nodup)
    (his : is.Nodup) :
    (js.flatMap (fun j => is.map (fun i => (i, j)))).Nodup := by
  rw [List.nodup_flatMap]
  refine ⟨fun j _ => his.map ?_, ?_⟩
  · intro a b h
    simpa using congrArg Prod.fst h
  · refine List.Pairwise.imp ?_ hjs
    intro j j' hne p hp hq
    simp only [List.mem_map] at hp hq
    rcases hp with ⟨i1, _, rfl⟩
    rcases hq with ⟨i2, _, h2⟩
    have hj : j' = j := congrArg Prod.snd h2
    exact hne hj.symm

/-- The support enumeration of a sample has no duplicate pixels. -/
theorem supportPts_nodup (f : ImageFilm) (x y : ℤ) (dx dy : ℚ) :
    (f.supportPts x y dx dy).Nodup :=
  rectPairs_nodup _ _ (intRange_nodup _ _) (intRange_nodup _ _)

/-- Summing an indicator-selected list over a duplicate-free list picks
the single value at the selected element. -/
theorem sum_map_ite_eq_of_nodup {α M : Type} [DecidableEq α]
    [AddCommMonoid M] (l : List α) (hl : l.Nodup) (p : α) (w : α → M) :
    (l.map (fun q => if q = p then w q else 0)).sum =
      if p ∈ l then w p else 0 := by
  induction l with
  | nil => simp
  | cons a l ih =>
    rcases List.nodup_cons.mp hl with ⟨ha, hl'⟩
    by_cases hap : a = p
    · subst hap
      have hz : ∀ c ∈ l.map (fun q => if q = a then w q else 0), c = 0 := by
        intro c hc
        rcases List.mem_map.mp hc with ⟨q, hq, rfl⟩
        have : q ≠ a := fun h => ha (h ▸ hq)
        simp [this]
      simp [List.sum_eq_zero hz, List.mem_cons]
    · have hpa : ¬ p = a := fun h => hap h.symm
      simp [hap, hpa, ih hl', List.mem_cons]

/-- One splat step adds the filter-table weight exactly at its target
pixel of the weight accumulator. -/
theorem splatStep_weights (f : ImageFilm) (x y : ℤ) (dx dy : ℚ)
    (cl : Option (LayerType → Rgba)) (g : ImageFilm) (q : ℤ × ℤ)
    (px py : ℤ) :
    (f.splatStep x y dx dy cl g q).weights_ px py =
      g.weights_ px py +
        (if q = (px + f.cx_0_, py + f.cy_0_) then
          f.tableWeight x y dx dy q else 0) := by
  rcases q with ⟨qa, qb⟩
  by_cases h : px = qa - f.cx_0_ ∧ py = qb - f.cy_0_
  · have hq : ((qa, qb) : ℤ × ℤ) = (px + f.cx_0_, py + f.cy_0_) := by
      rcases h with ⟨h1, h2⟩
      simp [Prod.ext_iff]
      omega
    simp [ImageFilm.splatStep, h, hq]
  · have hq : ((qa, qb) : ℤ × ℤ) ≠ (px + f.cx_0_, py + f.cy_0_) := by
      intro hc
      rcases Prod.mk.injEq .. ▸ hc with ⟨h1, h2⟩
      exact h ⟨by omega, by omega⟩
    simp [ImageFilm.splatStep, h, hq]

/-- Folding splat steps over a pixel list accumulates, at any fixed
pixel, the sum of the indicator-selected filter weights. -/
theorem splat_fold_weights (f : ImageFilm) (x y : ℤ) (dx dy : ℚ)
    (cl : Option (LayerType → Rgba)) (px py : ℤ) :
    ∀ (pts : List (ℤ × ℤ)) (g : ImageFilm),
    ((pts.foldl (f.splatStep x y dx dy cl) g).weights_ px py) =
      g.weights_ px py +
        ((pts.map (fun q =>
          if q = (px + f.cx_0_, py + f.cy_0_) then
            f.tableWeight x y dx dy q else 0)).sum) := by
  intro pts
  induction pts with
  | nil => intro g; simp
  | cons q pts ih =>
    intro g
    rw [List.foldl_cons, ih, splatStep_weights]
    simp only [List.map_cons, List.sum_cons]
    ring

/-- A splat step leaves the filter configuration untouched. -/
theorem splatStep_filterCfg (f : ImageFilm) (x y : ℤ) (dx dy : ℚ)
    (cl : Option (LayerType → Rgba)) (g : ImageFilm) (q : ℤ × ℤ) :
    (f.splatStep x y dx dy cl g q).filterCfg = g.filterCfg := rfl

/-- Folding splat steps leaves the filter configuration untouched. -/
theorem splat_fold_filterCfg (f : ImageFilm) (x y : ℤ) (dx dy : ℚ)
    (cl : Option (LayerType → Rgba)) :
    ∀ (pts : List (ℤ × ℤ)) (g : ImageFilm),
    (pts.foldl (f.splatStep x y dx dy cl) g).filterCfg = g.filterCfg := by
  intro pts
  induction pts with
  | nil => intro g; rfl
  | cons q pts ih => intro g; rw [List.foldl_cons, ih, splatStep_filterCfg]

/-- `addSample` leaves the filter configuration untouched. -/
theorem addSample_filterCfg (f : ImageFilm) (x y : ℤ) (dx dy : ℚ)
    (cl : Option (LayerType → Rgba)) :
    (f.addSample x y dx dy cl).filterCfg = f.filterCfg :=
  splat_fold_filterCfg f x y dx dy cl _ f

/-- A splat step updates the layer list entry-wise: the layer type is
kept and the grid gains the weighted clamped color at the target
pixel. -/
theorem splatStep_layer (f : ImageFilm) (x y : ℤ) (dx dy : ℚ)
    (cl : Option (LayerType → Rgba)) (g : ImageFilm) (q : ℤ × ℤ)
    (k : ℕ) (t : LayerType) (grid : Grid Rgba)
    (h : g.image_layers_[k]? = Option.some (t, grid)) :
    (f.splatStep x y dx dy cl g q).image_layers_[k]? =
      Option.some (t, fun a b =>
        if a = q.1 - f.cx_0_ ∧ b = q.2 - f.cy_0_ then
          grid a b + f.tableWeight x y dx dy q •
            clampedLayerColor cl f.aa_clamp_samples_ t
        else grid a b) := by
  simp [ImageFilm.splatStep, List.getElem?_map, h]

/-- Folding splat steps accumulates, at any fixed pixel of any layer,
the sum of the indicator-selected weighted clamped colors; the layer
type is preserved. -/
theorem splat_fold_layers (f : ImageFilm) (x y : ℤ) (dx dy : ℚ)
    (cl : Option (LayerType → Rgba)) (px py : ℤ) :
    ∀ (pts : List (ℤ × ℤ)) (g : ImageFilm) (k : ℕ) (t : LayerType)
      (grid : Grid Rgba),
    g.image_layers_[k]? = Option.some (t, grid) →
    ∃ grid2,
      (pts.foldl (f.splatStep x y dx dy cl) g).image_layers_[k]? =
        Option.some (t, grid2) ∧
      grid2 px py = grid px py +
        ((pts.map (fun q =>
          if q = (px + f.cx_0_, py + f.cy_0_) then
            f.tableWeight x y dx dy q •
              clampedLayerColor cl f.aa_clamp_samples_ t
          else 0)).sum) := by
  intro pts
  induction pts with
  | nil =>
    intro g k t grid h
    exact ⟨grid, h, by simp⟩
  | cons q pts ih =>
    intro g k t grid h
    rw [List.foldl_cons]
    obtain ⟨grid2, h2, hval⟩ :=
      ih (f.splatStep x y dx dy cl g q) k t _
        (splatStep_layer f x y dx dy cl g q k t grid h)
    refine ⟨grid2, h2, ?_⟩
    rcases q with ⟨qa, qb⟩
    have hiff : (px = qa - f.cx_0_ ∧ py = qb - f.cy_0_) ↔
        (((qa, qb) : ℤ × ℤ) = (px + f.cx_0_, py + f.cy_0_)) := by
      rw [Prod.ext_iff]
      constructor
      · rintro ⟨ha, hb⟩
        exact ⟨by omega, by omega⟩
      · rintro ⟨ha, hb⟩
        simp only at ha hb
        exact ⟨by omega, by omega⟩
    rw [hval]
    simp only [List.map_cons, List.sum_cons]
    by_cases hc : (((qa, qb) : ℤ × ℤ) = (px + f.cx_0_, py + f.cy_0_))
    · rw [if_pos (hiff.mpr hc), if_pos hc, add_assoc]
    · rw [if_neg (fun hh => hc (hiff.mp hh)), if_neg hc, zero_add]

/-- The per-call filter weight depends only on the filter
configuration. -/
theorem callFilterWeight_congr (g f : ImageFilm)
    (h : g.filterCfg = f.filterCfg) (c : SampleCall) (px py : ℤ) :
    g.callFilterWeight c px py = f.callFilterWeight c px py := by
  have h1 : g.cx_0_ = f.cx_0_ := congrArg (fun t => t.1.1) h
  have h2 : g.cy_0_ = f.cy_0_ := congrArg (fun t => t.1.2.1) h
  have h3 : g.cx_1_ = f.cx_1_ := congrArg (fun t => t.1.2.2.1) h
  have h4 : g.cy_1_ = f.cy_1_ := congrArg (fun t => t.1.2.2.2) h
  have h5 : g.filterw_ = f.filterw_ := congrArg (fun t => t.2.1.1) h
  have h6 : g.table_scale_ = f.table_scale_ := congrArg (fun t => t.2.1.2.1) h
  have h7 : g.filter_table_ = f.filter_table_ := congrArg (fun t => t.2.2) h
  simp only [ImageFilm.callFilterWeight, ImageFilm.supportPts,
    ImageFilm.sampleDx0, ImageFilm.sampleDx1, ImageFilm.sampleDy0,
    ImageFilm.sampleDy1, ImageFilm.tableWeight, ImageFilm.tableOffset,
    ImageFilm.filterIndex, h1, h2, h3, h4, h5, h6, h7]

/-- The weight accumulator after a sequence of `addSample` calls: the
starting value plus the sum of the per-call filter weights at the
pixel. -/
theorem addSamples_weights (calls : List SampleCall) :
    ∀ (f0 : ImageFilm) (px py : ℤ),
    (f0.addSamples calls).weights_ px py =
      f0.weights_ px py +
        ((calls.map (fun c => f0.callFilterWeight c px py)).sum) := by
  induction calls with
  | nil => intro f0 px py; simp [ImageFilm.addSamples]
  | cons c calls ih =>
    intro f0 px py
    have hstep : (f0.addSample c.x c.y c.dx c.dy c.colorLayers).weights_
        px py = f0.weights_ px py + f0.callFilterWeight c px py := by
      rw [ImageFilm.addSample, splat_fold_weights,
        sum_map_ite_eq_of_nodup _ (supportPts_nodup f0 c.x c.y c.dx c.dy),
        ImageFilm.callFilterWeight]
      congr 1
      by_cases hmem : (px + f0.cx_0_, py + f0.cy_0_) ∈
          f0.supportPts c.x c.y c.dx c.dy
      · rw [if_pos hmem, if_pos hmem]
      · rw [if_neg hmem, if_neg hmem]
    have hcfg := addSample_filterCfg f0 c.x c.y c.dx c.dy c.colorLayers
    calc (f0.addSamples (c :: calls)).weights_ px py
        = ((f0.addSample c.x c.y c.dx c.dy c.colorLayers).addSamples
            calls).weights_ px py := rfl
      _ = (f0.addSample c.x c.y c.dx c.dy c.colorLayers).weights_ px py +
            ((calls.map (fun c' =>
              (f0.addSample c.x c.y c.dx c.dy c.colorLayers).callFilterWeight
                c' px py)).sum) := ih _ px py
      _ = f0.weights_ px py + f0.callFilterWeight c px py +
            ((calls.map (fun c' => f0.callFilterWeight c' px py)).sum) := by
          rw [hstep, List.map_congr_left
            (fun c' _ => callFilterWeight_congr _ f0 hcfg c' px py)]
      _ = f0.weights_ px py +
            (((c :: calls).map (fun c' =>
              f0.callFilterWeight c' px py)).sum) := by
          simp only [List.map_cons, List.sum_cons]
          ring

/-- The layer accumulators after a sequence of `addSample` calls: the
layer type is preserved and the pixel gains the sum of the per-call
weighted clamped colors. -/
theorem addSamples_layers (calls : List SampleCall) :
    ∀ (f0 : ImageFilm) (px py : ℤ) (k : ℕ) (t : LayerType)
      (grid : Grid Rgba),
    f0.image_layers_[k]? = Option.some (t, grid) →
    ∃ grid2,
      (f0.addSamples calls).image_layers_[k]? = Option.some (t, grid2) ∧
      grid2 px py = grid px py +
        ((calls.map (fun c => f0.callFilterWeight c px py •
          c.clampedColor f0.aa_clamp_samples_ t)).sum) := by
  induction calls with
  | nil =>
    intro f0 px py k t grid h
    exact ⟨grid, h, by simp [ImageFilm.addSamples]⟩
  | cons c calls ih =>
    intro f0 px py k t grid h
    obtain ⟨grid1, h1, hval1⟩ :=
      splat_fold_layers f0 c.x c.y c.dx c.dy c.colorLayers px py
        (f0.supportPts c.x c.y c.dx c.dy) f0 k t grid h
    have hval1' : grid1 px py =
        grid px py + f0.callFilterWeight c px py •
          clampedLayerColor c.colorLayers f0.aa_clamp_samples_ t := by
      rw [hval1, sum_map_ite_eq_of_nodup _
        (supportPts_nodup f0 c.x c.y c.dx c.dy)]
      rw [ImageFilm.callFilterWeight]
      by_cases hmem : (px + f0.cx_0_, py + f0.cy_0_) ∈
          f0.supportPts c.x c.y c.dx c.dy
      · simp [hmem]
      · simp [hmem]
    have hcfg := addSample_filterCfg f0 c.x c.y c.dx c.dy c.colorLayers
    have hclamp : (f0.addSample c.x c.y c.dx c.dy
        c.colorLayers).aa_clamp_samples_ = f0.aa_clamp_samples_ :=
      congrArg (fun t => t.2.1.2.2) hcfg
    obtain ⟨grid2, h2, hval2⟩ := ih
      (f0.addSample c.x c.y c.dx c.dy c.colorLayers) px py k t grid1 h1
    refine ⟨grid2, h2, ?_⟩
    rw [hval2, hval1']
    simp only [List.map_cons, List.sum_cons]
    rw [List.map_congr_left (fun c' _ => by
      rw [callFilterWeight_congr _ f0 hcfg c' px py, hclamp])]
    rw [SampleCall.clampedColor, add_assoc]

/-- C1: for every pixel, after a sequence of `ImageFilm::addSample`
calls whose filter-table weights at that pixel sum to `W`, the pixel's
weight accumulator equals `W`; each layer's accumulated color equals
the sum, over the calls, of the clamped sample color times that call's
filter weight; and when `W ≠ 0` the normalized color is the accumulated
color divided by `W`. -/
theorem addSample_weight_conservation (f0 : ImageFilm)
    (calls : List SampleCall) (px py : ℤ) (W : ℚ)
    (hw0 : f0.weights_ px py = 0)
    (hW : W = (calls.map (fun c => f0.callFilterWeight c px py)).sum) :
    (f0.addSamples calls).weights_ px py = W ∧
    (∀ (k : ℕ) (t : LayerType) (grid0 : Grid Rgba),
      f0.image_layers_[k]? = Option.some (t, grid0) →
      grid0 px py = 0 →
      ∃ grid2,
        (f0.addSamples calls).image_layers_[k]? = Option.some (t, grid2) ∧
        grid2 px py = ((calls.map (fun c => f0.callFilterWeight c px py •
          c.clampedColor f0.aa_clamp_samples_ t)).sum) ∧
        (W ≠ 0 → (grid2 px py).normalized W = (1 / W) • grid2 px py)) := by
  constructor
  · rw [addSamples_weights, hw0, hW, zero_add]
  · intro k t grid0 hk hg0
    obtain ⟨grid2, h2, hval⟩ := addSamples_layers calls f0 px py k t grid0 hk
    refine ⟨grid2, h2, by rw [hval, hg0, zero_add], ?_⟩
    intro hWne
    rw [Rgba.normalized, if_pos hWne]

unseal Rat.add Rat.mul Rat.inv Rat.sub in
/-- Witness for C1 on the concrete film and call. -/
theorem addSample_weight_conservation_witness :
    (testFilm.addSamples [sampleCallA]).weights_ 0 0 = 1 :=
  (addSample_weight_conservation testFilm [sampleCallA] 0 0 1 (by decide)
    (by decide)).1

/-- Unfolded membership in the filter support of a sample. -/
theorem mem_supportPts {f : ImageFilm} {x y : ℤ} {dx dy : ℚ}
    {p : ℤ × ℤ} :
    p ∈ f.supportPts x y dx dy ↔
      (x + f.sampleDx0 x dx ≤ p.1 ∧ p.1 ≤ x + f.sampleDx1 x dx ∧
       y + f.sampleDy0 y dy ≤ p.2 ∧ p.2 ≤ y + f.sampleDy1 y dy) := by
  rcases p with ⟨pa, pb⟩
  simp only [ImageFilm.supportPts, List.mem_flatMap, List.mem_map,
    mem_intRange, Prod.mk.injEq]
  constructor
  · rintro ⟨j, hj, i, hi, rfl, rfl⟩
    exact ⟨hi.1, hi.2, hj.1, hj.2⟩
  · rintro ⟨h1, h2, h3, h4⟩
    exact ⟨pb, ⟨h3, h4⟩, pa, ⟨h1, h2⟩, rfl, rfl⟩

/-- A filter-table index stays below the table edge whenever the pixel
offset it discretizes is within the filter half-width. -/
theorem filterIndex_lt (f : ImageFilm) (offs : ℚ) (i : ℤ)
    (hfw1 : 501 / 1000 ≤ f.filterw_)
    (hts : f.table_scale_ =
      (9999 / 10000) * (filterTableSize : ℚ) / f.filterw_)
    (hi : |(i : ℚ) - offs| ≤ f.filterw_) :
    f.filterIndex offs i < filterTableSize := by
  have hfw0 : (0 : ℚ) < f.filterw_ := by
    have : (0 : ℚ) < 501 / 1000 := by norm_num
    linarith
  have hts0 : 0 ≤ f.table_scale_ := by
    rw [hts]
    positivity
  have h1 : |((i : ℚ) - offs) * f.table_scale_| =
      |(i : ℚ) - offs| * f.table_scale_ := by
    rw [abs_mul, abs_of_nonneg hts0]
  have h2 : |(i : ℚ) - offs| * f.table_scale_ ≤
      f.filterw_ * f.table_scale_ :=
    mul_le_mul_of_nonneg_right hi hts0
  have h3 : f.filterw_ * f.table_scale_ < 16 := by
    have hcan : f.filterw_ *
        ((9999 / 10000) * (filterTableSize : ℚ) / f.filterw_) =
        (9999 / 10000) * (filterTableSize : ℚ) := by
      field_simp
      ring
    rw [hts, hcan]
    norm_num [filterTableSize]
  have h4 : |((i : ℚ) - offs) * f.table_scale_| < 16 := by
    rw [h1]
    linarith
  have h5 : floorToInt |((i : ℚ) - offs) * f.table_scale_| < 16 := by
    rw [floorToInt_eq]
    exact Int.floor_lt.mpr (by exact_mod_cast h4)
  rw [ImageFilm.filterIndex, filterTableSize]
  omega

/-- C10: for every `addSample` call, every memory access of the
accumulation loop is in bounds: at most `MAX_FILTER_SIZE + 1 = 9`
entries are written to each of the local `x_index`/`y_index` arrays,
every accumulated pixel index lies inside the `width × height`
buffers, both filter-table indices stay below 16 and the filter-table
offset stays below 256.  The hypotheses are the constructor's
invariants (`cx_1_ = cx_0_ + width_`, the clamp of `filterw_` into
`[0.501, 4]` and the `table_scale_` formula) plus the claim's bounds
on the sample position and sub-pixel offsets. -/
theorem addSample_memory_safety (f : ImageFilm) (x y : ℤ) (dx dy : ℚ)
    (hcw : f.cx_1_ = f.cx_0_ + f.width_)
    (hch : f.cy_1_ = f.cy_0_ + f.height_)
    (hfw1 : 501 / 1000 ≤ f.filterw_) (hfw2 : f.filterw_ ≤ 4)
    (hts : f.table_scale_ =
      (9999 / 10000) * (filterTableSize : ℚ) / f.filterw_)
    (hx1 : f.cx_0_ ≤ x) (hx2 : x < f.cx_1_)
    (hy1 : f.cy_0_ ≤ y) (hy2 : y < f.cy_1_)
    (hdx1 : 0 ≤ dx) (hdx2 : dx < 1) (hdy1 : 0 ≤ dy) (hdy2 : dy < 1) :
    (f.sampleDx1 x dx - f.sampleDx0 x dx + 1 ≤ 9 ∧
     f.sampleDy1 y dy - f.sampleDy0 y dy + 1 ≤ 9) ∧
    ∀ p ∈ f.supportPts x y dx dy,
      (0 ≤ p.1 - f.cx_0_ ∧ p.1 - f.cx_0_ < f.width_ ∧
       0 ≤ p.2 - f.cy_0_ ∧ p.2 - f.cy_0_ < f.height_) ∧
      f.filterIndex (dx - 1 / 2) (p.1 - x) < filterTableSize ∧
      f.filterIndex (dy - 1 / 2) (p.2 - y) < filterTableSize ∧
      f.tableOffset x y dx dy p < 256 := by
  have hAx : ((roundToInt (dx + f.filterw_ - 1) : ℤ) : ℚ) ≤
      dx + f.filterw_ - 1 / 2 := by
    rw [roundToInt_eq]
    calc ((⌊dx + f.filterw_ - 1 + 1 / 2⌋ : ℤ) : ℚ) ≤
        dx + f.filterw_ - 1 + 1 / 2 := Int.floor_le _
      _ = dx + f.filterw_ - 1 / 2 := by ring
  have hBx : dx - f.filterw_ - 1 / 2 <
      ((roundToInt (dx - f.filterw_) : ℤ) : ℚ) := by
    rw [roundToInt_eq]
    calc dx - f.filterw_ - 1 / 2 = (dx - f.filterw_ + 1 / 2) - 1 := by ring
      _ < ((⌊dx - f.filterw_ + 1 / 2⌋ : ℤ) : ℚ) := Int.sub_one_lt_floor _
  have hAy : ((roundToInt (dy + f.filterw_ - 1) : ℤ) : ℚ) ≤
      dy + f.filterw_ - 1 / 2 := by
    rw [roundToInt_eq]
    calc ((⌊dy + f.filterw_ - 1 + 1 / 2⌋ : ℤ) : ℚ) ≤
        dy + f.filterw_ - 1 + 1 / 2 := Int.floor_le _
      _ = dy + f.filterw_ - 1 / 2 := by ring
  have hBy : dy - f.filterw_ - 1 / 2 <
      ((roundToInt (dy - f.filterw_) : ℤ) : ℚ) := by
    rw [roundToInt_eq]
    calc dy - f.filterw_ - 1 / 2 = (dy - f.filterw_ + 1 / 2) - 1 := by ring
      _ < ((⌊dy - f.filterw_ + 1 / 2⌋ : ℤ) : ℚ) := Int.sub_one_lt_floor _
  have hcountx : f.sampleDx1 x dx - f.sampleDx0 x dx + 1 ≤ 9 := by
    have hABq : ((roundToInt (dx + f.filterw_ - 1) : ℤ) : ℚ) -
        ((roundToInt (dx - f.filterw_) : ℤ) : ℚ) < 8 := by
      have h2fw : 2 * f.filterw_ ≤ 8 := by linarith
      calc ((roundToInt (dx + f.filterw_ - 1) : ℤ) : ℚ) -
          ((roundToInt (dx - f.filterw_) : ℤ) : ℚ) <
          (dx + f.filterw_ - 1 / 2) - (dx - f.filterw_ - 1 / 2) := by
            linarith
        _ = 2 * f.filterw_ := by ring
        _ ≤ 8 := h2fw
    have hAB : roundToInt (dx + f.filterw_ - 1) -
        roundToInt (dx - f.filterw_) < 8 := by exact_mod_cast hABq
    rw [ImageFilm.sampleDx0, ImageFilm.sampleDx1]
    omega
  have hcounty : f.sampleDy1 y dy - f.sampleDy0 y dy + 1 ≤ 9 := by
    have hABq : ((roundToInt (dy + f.filterw_ - 1) : ℤ) : ℚ) -
        ((roundToInt (dy - f.filterw_) : ℤ) : ℚ) < 8 := by
      have h2fw : 2 * f.filterw_ ≤ 8 := by linarith
      calc ((roundToInt (dy + f.filterw_ - 1) : ℤ) : ℚ) -
          ((roundToInt (dy - f.filterw_) : ℤ) : ℚ) <
          (dy + f.filterw_ - 1 / 2) - (dy - f.filterw_ - 1 / 2) := by
            linarith
        _ = 2 * f.filterw_ := by ring
        _ ≤ 8 := h2fw
    have hAB : roundToInt (dy + f.filterw_ - 1) -
        roundToInt (dy - f.filterw_) < 8 := by exact_mod_cast hABq
    rw [ImageFilm.sampleDy0, ImageFilm.sampleDy1]
    omega
  refine ⟨⟨hcountx, hcounty⟩, ?_⟩
  intro p hp
  rw [mem_supportPts] at hp
  obtain ⟨hp1, hp2, hp3, hp4⟩ := hp
  have hbx0 : f.cx_0_ ≤ p.1 := by
    have : f.cx_0_ - x ≤ f.sampleDx0 x dx := le_max_left _ _
    omega
  have hbx1 : p.1 ≤ f.cx_1_ - 1 := by
    have : f.sampleDx1 x dx ≤ f.cx_1_ - x - 1 := min_le_left _ _
    omega
  have hby0 : f.cy_0_ ≤ p.2 := by
    have : f.cy_0_ - y ≤ f.sampleDy0 y dy := le_max_left _ _
    omega
  have hby1 : p.2 ≤ f.cy_1_ - 1 := by
    have : f.sampleDy1 y dy ≤ f.cy_1_ - y - 1 := min_le_left _ _
    omega
  have hix : |((p.1 - x : ℤ) : ℚ) - (dx - 1 / 2)| ≤ f.filterw_ := by
    have hlo : roundToInt (dx - f.filterw_) ≤ p.1 - x := by
      have : roundToInt (dx - f.filterw_) ≤ f.sampleDx0 x dx :=
        le_max_right _ _
      omega
    have hhi : p.1 - x ≤ roundToInt (dx + f.filterw_ - 1) := by
      have : f.sampleDx1 x dx ≤ roundToInt (dx + f.filterw_ - 1) :=
        min_le_right _ _
      omega
    have hloq : ((roundToInt (dx - f.filterw_) : ℤ) : ℚ) ≤
        ((p.1 - x : ℤ) : ℚ) := by exact_mod_cast hlo
    have hhiq : ((p.1 - x : ℤ) : ℚ) ≤
        ((roundToInt (dx + f.filterw_ - 1) : ℤ) : ℚ) := by
      exact_mod_cast hhi
    rw [abs_le]
    constructor
    · linarith
    · linarith
  have hiy : |((p.2 - y : ℤ) : ℚ) - (dy - 1 / 2)| ≤ f.filterw_ := by
    have hlo : roundToInt (dy - f.filterw_) ≤ p.2 - y := by
      have : roundToInt (dy - f.filterw_) ≤ f.sampleDy0 y dy :=
        le_max_right _ _
      omega
    have hhi : p.2 - y ≤ roundToInt (dy + f.filterw_ - 1) := by
      have : f.sampleDy1 y dy ≤ roundToInt (dy + f.filterw_ - 1) :=
        min_le_right _ _
      omega
    have hloq : ((roundToInt (dy - f.filterw_) : ℤ) : ℚ) ≤
        ((p.2 - y : ℤ) : ℚ) := by exact_mod_cast hlo
    have hhiq : ((p.2 - y : ℤ) : ℚ) ≤
        ((roundToInt (dy + f.filterw_ - 1) : ℤ) : ℚ) := by
      exact_mod_cast hhi
    rw [abs_le]
    constructor
    · linarith
    · linarith
  have hfx := filterIndex_lt f (dx - 1 / 2) (p.1 - x) hfw1 hts hix
  have hfy := filterIndex_lt f (dy - 1 / 2) (p.2 - y) hfw1 hts hiy
  refine ⟨⟨by omega, by omega, by omega, by omega⟩, hfx, hfy, ?_⟩
  rw [ImageFilm.tableOffset]
  have hfx' : f.filterIndex (dx - 1 / 2) (p.1 - x) ≤ 15 := by
    rw [filterTableSize] at hfx
    omega
  have hfy' : f.filterIndex (dy - 1 / 2) (p.2 - y) ≤ 15 := by
    rw [filterTableSize] at hfy
    omega
  calc f.filterIndex (dy - 1 / 2) (p.2 - y) * filterTableSize +
      f.filterIndex (dx - 1 / 2) (p.1 - x) ≤ 15 * filterTableSize + 15 := by
        have := Nat.mul_le_mul_right filterTableSize hfy'
        omega
    _ < 256 := by norm_num [filterTableSize]

unseal Rat.add Rat.mul Rat.inv Rat.sub in
/-- Witness for C10 on the concrete film and a concrete sample. -/
theorem addSample_memory_safety_witness :
    (testFilm.sampleDx1 0 (1 / 2) - testFilm.sampleDx0 0 (1 / 2) + 1 ≤ 9 ∧
     testFilm.sampleDy1 0 (1 / 2) - testFilm.sampleDy0 0 (1 / 2) + 1 ≤ 9) ∧
    ∀ p ∈ testFilm.supportPts 0 0 (1 / 2) (1 / 2),
      (0 ≤ p.1 - testFilm.cx_0_ ∧ p.1 - testFilm.cx_0_ < testFilm.width_ ∧
       0 ≤ p.2 - testFilm.cy_0_ ∧ p.2 - testFilm.cy_0_ < testFilm.height_) ∧
      testFilm.filterIndex (1 / 2 - 1 / 2) (p.1 - 0) < filterTableSize ∧
      testFilm.filterIndex (1 / 2 - 1 / 2) (p.2 - 0) < filterTableSize ∧
      testFilm.tableOffset 0 0 (1 / 2) (1 / 2) p < 256 :=
  addSample_memory_safety testFilm 0 0 (1 / 2) (1 / 2) (by decide)
    (by decide) (by decide) (by decide) (by decide) (by decide) (by decide)
    (by decide) (by decide) (by decide) (by decide) (by decide) (by decide)

/-- Preservation of any film projection along a fold. -/
theorem foldl_preserves {α β : Type} (proj : ImageFilm → β)
    (step : ImageFilm → α → ImageFilm)
    (hstep : ∀ g a, proj (step g a) = proj g) :
    ∀ (l : List α) (g : ImageFilm), proj (l.foldl step g) = proj g := by
  intro l
  induction l with
  | nil => intro g; rfl
  | cons a l ih => intro g; rw [List.foldl_cons, ih, hstep]

/-- An `if` between two films with the same blanked-flags view keeps
that view. -/
theorem eraseFlags_ite (c : Prop) [Decidable c] {g1 g2 t : ImageFilm}
    (h1 : g1.eraseFlags = t) (h2 : g2.eraseFlags = t) :
    (if c then g1 else g2).eraseFlags = t := by
  split
  · exact h1
  · exact h2

/-- Setting a resample flag changes nothing outside `flags_`. -/
theorem setFlag_eraseFlags (f : ImageFilm) (x y : ℤ) (v : Bool) :
    (f.setFlag x y v).eraseFlags = f.eraseFlags := rfl

/-- The variance block changes nothing outside `flags_`. -/
theorem varianceBlock_eraseFlags (f g : ImageFilm) (x y : ℤ) (th : ℚ) :
    (f.varianceBlock g x y th).eraseFlags = g.eraseFlags := by
  dsimp only [ImageFilm.varianceBlock]
  split
  · apply foldl_preserves
    intro g2 d
    rfl
  · rfl

set_option maxHeartbeats 1000000 in
set_option maxRecDepth 4000 in
/-- One adaptive-loop iteration changes nothing outside `flags_`. -/
theorem adaptiveStep_eraseFlags (f g : ImageFilm) (p : ℕ × ℕ) :
    (f.adaptiveStep g p).eraseFlags = g.eraseFlags := by
  dsimp only [ImageFilm.adaptiveStep]
  repeat
    first
    | rw [setFlag_eraseFlags]
    | rw [varianceBlock_eraseFlags]
    | apply eraseFlags_ite
    | rfl

/-- Two films with the same blanked-flags view agree on the
accumulators and the filter table. -/
theorem eraseFlags_fields {g1 g2 : ImageFilm}
    (h : g1.eraseFlags = g2.eraseFlags) :
    g1.filter_table_ = g2.filter_table_ ∧ g1.weights_ = g2.weights_ ∧
    g1.image_layers_ = g2.image_layers_ := by
  have h1 := congrArg ImageFilm.filter_table_ h
  have h2 := congrArg ImageFilm.weights_ h
  have h3 := congrArg ImageFilm.image_layers_ h
  exact ⟨h1, h2, h3⟩

/-- `addSample` never writes the filter table. -/
theorem addSample_filter_table (f : ImageFilm) (x y : ℤ) (dx dy : ℚ)
    (cl : Option (LayerType → Rgba)) :
    (f.addSample x y dx dy cl).filter_table_ = f.filter_table_ :=
  congrArg (fun t => t.2.2) (addSample_filterCfg f x y dx dy cl)

/-- The adaptive flag recomputation of `nextPass` never writes anything
outside `flags_`: both folds keep the blanked-flags view. -/
theorem nextPass_folds_eraseFlags (f : ImageFilm) :
    ∀ (l : List (ℕ × ℕ)) (g : ImageFilm),
    ((l.foldl f.adaptiveStep g).eraseFlags = g.eraseFlags) ∧
    ((l.foldl (fun g2 p => g2.setFlag (p.1 : ℤ) (p.2 : ℤ) false) g).eraseFlags
      = g.eraseFlags) := by
  intro l g
  constructor
  · exact foldl_preserves ImageFilm.eraseFlags _
      (fun g2 p => adaptiveStep_eraseFlags f g2 p) l g
  · apply foldl_preserves
    intro g2 p
    rfl

/-- The adaptive recomputation (clear loop then adaptive loop) never
writes the filter table. -/
theorem setFlagFold_filter_table (g0 : ImageFilm) (l : List (ℕ × ℕ))
    (t : ℕ → ℚ) (h : g0.filter_table_ = t) :
    ((l.foldl (fun g p => g.setFlag (p.1 : ℤ) (p.2 : ℤ) false)
      g0).filter_table_) = t := by
  have e := foldl_preserves ImageFilm.eraseFlags
    (fun g p => g.setFlag (p.1 : ℤ) (p.2 : ℤ) false) (fun g p => rfl) l g0
  exact ((eraseFlags_fields e).1).trans h

/-- The adaptive loop never writes the filter table. -/
theorem adaptiveFold_filter_table (fr g0 : ImageFilm)
    (l : List (ℕ × ℕ)) (t : ℕ → ℚ) (h : g0.filter_table_ = t) :
    ((l.foldl fr.adaptiveStep g0).filter_table_) = t := by
  have e := foldl_preserves ImageFilm.eraseFlags fr.adaptiveStep
    (fun g p => adaptiveStep_eraseFlags fr g p) l g0
  exact ((eraseFlags_fields e).1).trans h

/-- `nextPass` never writes the filter table. -/
theorem nextPass_filter_table (f : ImageFilm) (a s : Bool) :
    (f.nextPass a s).2.filter_table_ = f.filter_table_ := by
  dsimp only [ImageFilm.nextPass]
  repeat' split
  all_goals
    first
    | rfl
    | (apply adaptiveFold_filter_table
       apply setFlagFold_filter_table
       rfl)

set_option maxHeartbeats 2000000 in
set_option maxRecDepth 8000 in
/-- `imageFilmLoad` never writes the filter table. -/
theorem imageFilmLoad_filter_table (f : ImageFilm)
    (file : Option (List FilmToken)) :
    (f.imageFilmLoad file).2.filter_table_ = f.filter_table_ := by
  unfold ImageFilm.imageFilmLoad
  dsimp only
  repeat' split
  all_goals exact rfl

/-- Overwriting a layer buffer changes nothing outside
`image_layers_`. -/
theorem setLayer_eraseLayers (f : ImageFilm) (t : LayerType)
    (g0 : Grid Rgba) : (f.setLayer t g0).eraseLayers = f.eraseLayers := rfl

/-- The faces-edge generator changes nothing outside `image_layers_`. -/
theorem generateDebugFacesEdges_eraseLayers (f : ImageFilm)
    (parts : FlushParts) :
    (f.generateDebugFacesEdges parts).eraseLayers = f.eraseLayers := by
  dsimp only [ImageFilm.generateDebugFacesEdges]
  split
  · rfl
  · rfl

/-- The toon and object-edge generator changes nothing outside
`image_layers_`. -/
theorem generateToonAndDebugObjectEdges_eraseLayers (f : ImageFilm)
    (parts : FlushParts) :
    (f.generateToonAndDebugObjectEdges parts).eraseLayers =
      f.eraseLayers := by
  dsimp only [ImageFilm.generateToonAndDebugObjectEdges]
  split
  · rfl
  · rfl

/-- The layer regeneration of `flush` changes nothing outside
`image_layers_`. -/
theorem flushFilm_eraseLayers (f : ImageFilm) (parts : FlushParts) :
    (f.flushFilm parts).eraseLayers = f.eraseLayers := by
  dsimp only [ImageFilm.flushFilm]
  repeat' split
  all_goals
    first
    | rfl
    | rw [generateToonAndDebugObjectEdges_eraseLayers,
        generateDebugFacesEdges_eraseLayers]
    | rw [generateToonAndDebugObjectEdges_eraseLayers]
    | rw [generateDebugFacesEdges_eraseLayers]

/-- Two films with the same blanked-layers view agree on every field
outside the layer list. -/
theorem eraseLayers_fields {g1 g2 : ImageFilm}
    (h : g1.eraseLayers = g2.eraseLayers) :
    g1.weights_ = g2.weights_ ∧ g1.filter_table_ = g2.filter_table_ ∧
    g1.width_ = g2.width_ ∧ g1.height_ = g2.height_ ∧
    g1.estimate_density_ = g2.estimate_density_ ∧
    g1.num_density_samples_ = g2.num_density_samples_ ∧
    g1.density_image_ = g2.density_image_ := by
  have h1 := congrArg ImageFilm.weights_ h
  have h2 := congrArg ImageFilm.filter_table_ h
  have h3 := congrArg ImageFilm.width_ h
  have h4 := congrArg ImageFilm.height_ h
  have h5 := congrArg ImageFilm.estimate_density_ h
  have h6 := congrArg ImageFilm.num_density_samples_ h
  have h7 := congrArg ImageFilm.density_image_ h
  exact ⟨h1, h2, h3, h4, h5, h6, h7⟩

/-- `flush` never writes the filter table. -/
theorem flush_filter_table (f : ImageFilm) (parts : FlushParts) :
    (f.flush parts).1.filter_table_ = f.filter_table_ :=
  (eraseLayers_fields (flushFilm_eraseLayers f parts)).2.1

/-- The constructor's clamp keeps the filter half-width in
`[0.501, 4]` for every filter kind. -/
theorem computeFilterw_bounds (fs : ℚ) (filt : FilterType) :
    501 / 1000 ≤ computeFilterw fs filt ∧ computeFilterw fs filt ≤ 4 := by
  cases filt <;>
    (refine ⟨le_min (le_max_left _ _) (by norm_num [maxFilterSize]), ?_⟩
     exact min_le_of_right_le (by norm_num [maxFilterSize]))

/-- C8: the effective filter half-width is half the configured pixel
width, widened by `2.6` for Mitchell and `2.0` for Gauss (and by
nothing for Box or Lanczos), clamped to
`[0.501, MAX_FILTER_SIZE / 2] = [0.501, 4]`; the 16×16 filter table is
filled from the filter function once at construction, and none of
`addSample`, `nextPass`, `imageFilmLoad` or `flush` ever writes it. -/
theorem constructor_filter_config (width height xstart ystart : ℤ)
    (filterSize : ℚ) (filt : FilterType) (ffunc : ℚ → ℚ → ℚ)
    (layerTypes : List LayerType) (F : ImageFilm)
    (hF : F = mkImageFilm width height xstart ystart filterSize filt
      ffunc layerTypes) :
    ((filt = FilterType.mitchell →
        F.filterw_ =
          min (max (501 / 1000) (filterSize * (1 / 2) * (26 / 10))) 4) ∧
     (filt = FilterType.gauss →
        F.filterw_ = min (max (501 / 1000) (filterSize * (1 / 2) * 2)) 4) ∧
     ((filt = FilterType.box ∨ filt = FilterType.lanczos) →
        F.filterw_ = min (max (501 / 1000) (filterSize * (1 / 2))) 4)) ∧
    (501 / 1000 ≤ F.filterw_ ∧ F.filterw_ ≤ 4) ∧
    (∀ idx, F.filter_table_ idx =
      ffunc (((idx % filterTableSize : ℕ) + 1 / 2) *
          (1 / (filterTableSize : ℚ)))
        (((idx / filterTableSize : ℕ) + 1 / 2) *
          (1 / (filterTableSize : ℚ)))) ∧
    ((∀ x y dx dy cl,
        (F.addSample x y dx dy cl).filter_table_ = F.filter_table_) ∧
     (∀ a s, (F.nextPass a s).2.filter_table_ = F.filter_table_) ∧
     (∀ file, (F.imageFilmLoad file).2.filter_table_ = F.filter_table_) ∧
     (∀ parts, (F.flush parts).1.filter_table_ = F.filter_table_)) := by
  subst hF
  have hMax : ((1 : ℚ) / 2) * (maxFilterSize : ℚ) = 4 := by
    norm_num [maxFilterSize]
  refine ⟨⟨?_, ?_, ?_⟩, ?_, fun idx => rfl,
    fun x y dx dy cl => addSample_filter_table _ x y dx dy cl,
    fun a s => nextPass_filter_table _ a s,
    fun file => imageFilmLoad_filter_table _ file,
    fun parts => flush_filter_table _ parts⟩
  · rintro rfl
    rw [show (mkImageFilm width height xstart ystart filterSize
        FilterType.mitchell ffunc layerTypes).filterw_ =
      min (max (501 / 1000) (filterSize * (1 / 2) * (26 / 10)))
        ((1 / 2) * (maxFilterSize : ℚ)) from rfl, hMax]
  · rintro rfl
    rw [show (mkImageFilm width height xstart ystart filterSize
        FilterType.gauss ffunc layerTypes).filterw_ =
      min (max (501 / 1000) (filterSize * (1 / 2) * 2))
        ((1 / 2) * (maxFilterSize : ℚ)) from rfl, hMax]
  · rintro (rfl | rfl)
    · rw [show (mkImageFilm width height xstart ystart filterSize
          FilterType.box ffunc layerTypes).filterw_ =
        min (max (501 / 1000) (filterSize * (1 / 2)))
          ((1 / 2) * (maxFilterSize : ℚ)) from rfl, hMax]
    · rw [show (mkImageFilm width height xstart ystart filterSize
          FilterType.lanczos ffunc layerTypes).filterw_ =
        min (max (501 / 1000) (filterSize * (1 / 2)))
          ((1 / 2) * (maxFilterSize : ℚ)) from rfl, hMax]
  · exact computeFilterw_bounds filterSize filt

/-- Witness for C8 at a concrete Mitchell-filter construction. -/
theorem constructor_filter_config_witness :
    (mkImageFilm 2 2 0 0 2 FilterType.mitchell boxFilterFunc
      [LayerType.combined]).filterw_ =
      min (max (501 / 1000) (2 * (1 / 2) * (26 / 10))) 4 :=
  ((constructor_filter_config 2 2 0 0 2 FilterType.mitchell boxFilterFunc
    [LayerType.combined] _ rfl).1).1 rfl

/-- Folds preserve any predicate their steps preserve. -/
theorem foldl_pred {α : Type} (P : ImageFilm → Prop)
    (step : ImageFilm → α → ImageFilm)
    (hstep : ∀ g x, P g → P (step g x)) :
    ∀ (l : List α) (g : ImageFilm), P g → P (l.foldl step g) := by
  intro l
  induction l with
  | nil => intro g h; exact h
  | cons a l ih => intro g h; exact ih _ (hstep g a h)

/-- The clear loop of `nextPass` keeps the pass frame of its start
film. -/
theorem setFlagFold_passFrame (g0 : ImageFilm) (l : List (ℕ × ℕ))
    (t : ImageFilm) (h : g0.passFrame = t) :
    ((l.foldl (fun g p => g.setFlag (p.1 : ℤ) (p.2 : ℤ) false)
      g0).passFrame) = t := by
  have e := foldl_preserves ImageFilm.eraseFlags
    (fun g p => g.setFlag (p.1 : ℤ) (p.2 : ℤ) false) (fun g p => rfl) l g0
  exact (congrArg zeroPassCounters e).trans h

/-- The adaptive loop of `nextPass` keeps the pass frame of its start
film. -/
theorem adaptiveFold_passFrame (fr g0 : ImageFilm) (l : List (ℕ × ℕ))
    (t : ImageFilm) (h : g0.passFrame = t) :
    ((l.foldl fr.adaptiveStep g0).passFrame) = t := by
  have e := foldl_preserves ImageFilm.eraseFlags fr.adaptiveStep
    (fun g p => adaptiveStep_eraseFlags fr g p) l g0
  exact (congrArg zeroPassCounters e).trans h

/-- `nextPass` changes nothing outside the resample flags and the pass
counters. -/
theorem nextPass_passFrame (f : ImageFilm) (a s : Bool) :
    (f.nextPass a s).2.passFrame = f.passFrame := by
  dsimp only [ImageFilm.nextPass]
  repeat' split
  all_goals
    first
    | rfl
    | (apply adaptiveFold_passFrame
       apply setFlagFold_passFrame
       rfl)

/-- Two films with the same pass frame agree on every field outside the
flags and pass counters. -/
theorem passFrame_fields {g1 g2 : ImageFilm}
    (h : g1.passFrame = g2.passFrame) :
    g1.aa_threshold_ = g2.aa_threshold_ ∧ g1.weights_ = g2.weights_ ∧
    g1.image_layers_ = g2.image_layers_ ∧ g1.width_ = g2.width_ ∧
    g1.height_ = g2.height_ ∧ g1.cx_0_ = g2.cx_0_ ∧
    g1.cy_0_ = g2.cy_0_ := by
  have h1 := congrArg ImageFilm.aa_threshold_ h
  have h2 := congrArg ImageFilm.weights_ h
  have h3 := congrArg ImageFilm.image_layers_ h
  have h4 := congrArg ImageFilm.width_ h
  have h5 := congrArg ImageFilm.height_ h
  have h6 := congrArg ImageFilm.cx_0_ h
  have h7 := congrArg ImageFilm.cy_0_ h
  exact ⟨h1, h2, h3, h4, h5, h6, h7⟩

/-- When adaptive sampling is off (or the threshold not positive) and
the pass is not skipped, `nextPass` reports `height_ * width_` resample
pixels. -/
theorem nextPass_not_adaptive (f : ImageFilm) (a : Bool)
    (h : ¬(a = true ∧ 0 < f.aa_threshold_)) :
    (f.nextPass a false).1 = f.height_ * f.width_ := by
  dsimp only [ImageFilm.nextPass]
  rw [if_neg (by simp : ¬((false : Bool) = true))]
  repeat' split
  all_goals exact rfl

/-- Setting one flag to `true` keeps every flag already set. -/
theorem setFlag_true_mono (g : ImageFilm) (x y : ℤ) {a b : ℤ}
    (h : g.flags_ a b = true) : (g.setFlag x y true).flags_ a b = true := by
  show (if a = x ∧ b = y then true else g.flags_ a b) = true
  split
  · rfl
  · exact h

/-- The flag just set is set. -/
theorem setFlag_true_self (g : ImageFilm) (x y : ℤ) :
    (g.setFlag x y true).flags_ x y = true := by
  show (if x = x ∧ y = y then true else g.flags_ x y) = true
  rw [if_pos ⟨rfl, rfl⟩]

/-- A choice between two films that both keep a flag keeps it. -/
theorem flags_ite_mono (c : Prop) [Decidable c] {g1 g2 : ImageFilm}
    {a b : ℤ} (h1 : g1.flags_ a b = true) (h2 : g2.flags_ a b = true) :
    (if c then g1 else g2).flags_ a b = true := by
  split
  · exact h1
  · exact h2

/-- The variance block only ever sets flags, so it keeps every flag
already set. -/
theorem varianceBlock_mono (fr g : ImageFilm) (x y : ℤ) (th : ℚ)
    {a b : ℤ} (h : g.flags_ a b = true) :
    (fr.varianceBlock g x y th).flags_ a b = true := by
  dsimp only [ImageFilm.varianceBlock]
  split
  · refine foldl_pred (fun g2 => g2.flags_ a b = true) _ ?_ _ g h
    intro g2 d hp
    exact setFlag_true_mono _ _ _ hp
  · exact h

set_option maxHeartbeats 1000000 in
set_option maxRecDepth 4000 in
/-- One adaptive-loop iteration only ever sets flags, so it keeps every
flag already set. -/
theorem adaptiveStep_mono (fr g : ImageFilm) (p : ℕ × ℕ) {a b : ℤ}
    (h : g.flags_ a b = true) :
    (fr.adaptiveStep g p).flags_ a b = true := by
  dsimp only [ImageFilm.adaptiveStep]
  repeat
    first
    | exact h
    | apply setFlag_true_mono
    | apply varianceBlock_mono
    | apply flags_ite_mono

set_option maxHeartbeats 1000000 in
set_option maxRecDepth 4000 in
/-- One adaptive-loop iteration at a zero-weight pixel flags that
pixel (`imagefilm.cc:296`: `if(weight <= 0.f) flag = true`). -/
theorem adaptiveStep_sets (fr g : ImageFilm) (px py : ℕ)
    (hw : fr.weights_ (px : ℤ) (py : ℤ) ≤ 0) :
    (fr.adaptiveStep g (px, py)).flags_ (px : ℤ) (py : ℤ) = true := by
  dsimp only [ImageFilm.adaptiveStep]
  rw [if_pos hw]
  repeat
    first
    | exact setFlag_true_self _ _ _
    | apply setFlag_true_mono
    | apply varianceBlock_mono
    | apply flags_ite_mono

/-- The adaptive loop flags every zero-weight pixel it visits. -/
theorem adaptiveFold_flags (fr : ImageFilm) (px py : ℕ)
    (hw : fr.weights_ (px : ℤ) (py : ℤ) ≤ 0) :
    ∀ (l : List (ℕ × ℕ)) (g : ImageFilm), (px, py) ∈ l →
      (l.foldl fr.adaptiveStep g).flags_ (px : ℤ) (py : ℤ) = true := by
  intro l
  induction l with
  | nil => intro g hmem; cases hmem
  | cons q l ih =>
    intro g hmem
    rw [List.foldl_cons]
    rcases List.mem_cons.mp hmem with rfl | hmem2
    · refine foldl_pred (fun g2 => g2.flags_ (px : ℤ) (py : ℤ) = true)
        fr.adaptiveStep ?_ l _ (adaptiveStep_sets fr g px py hw)
      intro g2 d hp
      exact adaptiveStep_mono fr g2 d hp
    · exact ih _ hmem2

/-- The pairs enumerated over a `w × h` rectangle are exactly those in
range. -/
theorem mem_rectList_pair {w h px py : ℕ} :
    ((px, py) ∈ rectList w h (fun x y => (x, y))) ↔ px < w ∧ py < h := by
  simp only [rectList, List.mem_flatMap, List.mem_map, List.mem_range,
    Prod.mk.injEq]
  constructor
  · rintro ⟨y, hy, x, hx, rfl, rfl⟩
    exact ⟨hx, hy⟩
  · rintro ⟨h1, h2⟩
    exact ⟨py, h2, px, h1, rfl, rfl⟩

/-- The clear loop of `nextPass` keeps the weight accumulator. -/
theorem setFlagFold_weights (g0 : ImageFilm) (l : List (ℕ × ℕ))
    (t : Grid ℚ) (h : g0.weights_ = t) :
    ((l.foldl (fun g p => g.setFlag (p.1 : ℤ) (p.2 : ℤ) false)
      g0).weights_) = t := by
  have e := foldl_preserves ImageFilm.eraseFlags
    (fun g p => g.setFlag (p.1 : ℤ) (p.2 : ℤ) false) (fun g p => rfl) l g0
  exact ((eraseFlags_fields e).2.1).trans h

/-- The clear loop of `nextPass` keeps the image dimensions. -/
theorem setFlagFold_dims (g0 : ImageFilm) (l : List (ℕ × ℕ)) :
    ((l.foldl (fun g p => g.setFlag (p.1 : ℤ) (p.2 : ℤ) false)
      g0).width_) = g0.width_ ∧
    ((l.foldl (fun g p => g.setFlag (p.1 : ℤ) (p.2 : ℤ) false)
      g0).height_) = g0.height_ := by
  have e := foldl_preserves ImageFilm.eraseFlags
    (fun g p => g.setFlag (p.1 : ℤ) (p.2 : ℤ) false) (fun g p => rfl) l g0
  have h1 := congrArg ImageFilm.width_ e
  have h2 := congrArg ImageFilm.height_ e
  exact ⟨h1, h2⟩

/-- C7 (amended): in the adaptive flag recomputation of `nextPass`
(adaptive mode, positive threshold, pass not skipped), every pixel with
`x < width - 1` and `y < height - 1` whose accumulated weight is not
positive is flagged for resampling.  The spec's "regardless of its
position in the image" does not hold: the loop stops short of the last
row and column (`imagefilm.cc:290-292`), so zero-weight pixels there
are never flagged. -/
theorem zero_weight_pixel_flagged (f : ImageFilm) (px py : ℕ)
    (hthr : 0 < f.aa_threshold_)
    (hx : (px : ℤ) < f.width_ - 1) (hy : (py : ℤ) < f.height_ - 1)
    (hw : f.weights_ (px : ℤ) (py : ℤ) ≤ 0) :
    (f.nextPass true false).2.flags_ (px : ℤ) (py : ℤ) = true := by
  dsimp only [ImageFilm.nextPass]
  rw [if_neg (by simp : ¬((false : Bool) = true))]
  repeat' split
  all_goals
    first
    | (apply adaptiveFold_flags
       · exact le_of_eq_of_le
           (congrFun (congrFun
             (setFlagFold_weights _ _ f.weights_ (by exact rfl)) _) _) hw
       · refine mem_rectList_pair.mpr ⟨?_, ?_⟩
         · rw [(setFlagFold_dims _ _).1]
           show px < (f.width_ - 1).toNat
           omega
         · rw [(setFlagFold_dims _ _).2]
           show py < (f.height_ - 1).toNat
           omega)
    | (rename_i hcond
       exact absurd ⟨rfl, hthr⟩ hcond)

unseal Rat.add Rat.mul Rat.inv Rat.sub in
/-- Witness for the amended C7 at the interior pixel `(0, 0)` of the
never-sampled 2×2 film with threshold 1. -/
theorem zero_weight_pixel_flagged_witness :
    (testFilmThr.nextPass true false).2.flags_ 0 0 = true :=
  zero_weight_pixel_flagged testFilmThr 0 0 (by decide) (by decide)
    (by decide) (by decide)

unseal Rat.add Rat.mul Rat.inv Rat.sub in
/-- Counterexample to C7 as stated: on the never-sampled 2×2 film with
threshold 1, the zero-weight pixel `(1, 1)` — in the last row and
column, but inside the image — is not flagged by the adaptive
recomputation. -/
theorem zero_weight_last_pixel_not_flagged_cex :
    0 < testFilmThr.aa_threshold_ ∧
    testFilmThr.weights_ 1 1 = 0 ∧
    (1 : ℤ) < testFilmThr.width_ ∧ (1 : ℤ) < testFilmThr.height_ ∧
    (testFilmThr.nextPass true false).2.flags_ 1 1 = false := by
  decide

/-- C6 (amended): when the noise threshold is not positive, or adaptive
sampling is disabled, `nextPass` reports `height × width` resample
pixels; and when the threshold is not positive, `doMoreSamples` is
`true` at every pixel both before and after the pass.  The spec's
claim that `doMoreSamples` is true everywhere also in the
adaptive-disabled case with a positive threshold does not hold: it
then reads the resample flags, which `nextPass` has just filled with
`false` (`imagefilm.cc:276-289`, `707-710`). -/
theorem zero_threshold_full_resampling (f : ImageFilm) (a : Bool)
    (hcase : f.aa_threshold_ ≤ 0 ∨ a = false) :
    (f.nextPass a false).1 = f.height_ * f.width_ ∧
    (f.aa_threshold_ ≤ 0 → ∀ x y : ℤ,
      f.doMoreSamples x y = true ∧
      (f.nextPass a false).2.doMoreSamples x y = true) := by
  constructor
  · apply nextPass_not_adaptive
    rintro ⟨ha, hthr⟩
    rcases hcase with hc | hc
    · exact absurd hthr (not_lt.mpr hc)
    · rw [hc] at ha
      exact Bool.noConfusion ha
  · intro hthr x y
    have hpres := (passFrame_fields (nextPass_passFrame f a false)).1
    constructor
    · simp only [ImageFilm.doMoreSamples]
      rw [decide_eq_true hthr, Bool.true_or]
    · simp only [ImageFilm.doMoreSamples]
      rw [hpres, decide_eq_true hthr, Bool.true_or]

unseal Rat.add Rat.mul Rat.inv Rat.sub in
/-- Witness for the amended C6 on the 2×2 film with threshold 0. -/
theorem zero_threshold_full_resampling_witness :
    (testFilm.nextPass true false).1 = testFilm.height_ * testFilm.width_ ∧
    testFilm.doMoreSamples 1 1 = true ∧
    (testFilm.nextPass true false).2.doMoreSamples 1 1 = true := by
  have h := zero_threshold_full_resampling testFilm true (Or.inl (by decide))
  exact ⟨h.1, (h.2 (by decide) 1 1).1, (h.2 (by decide) 1 1).2⟩

unseal Rat.add Rat.mul Rat.inv Rat.sub in
/-- Counterexample to C6 as stated: with adaptive sampling disabled but
a positive threshold, `nextPass` still reports `width × height`
resample pixels, yet `doMoreSamples` is `false` at pixel `(0, 0)`
after the pass. -/
theorem disabled_adaptive_not_full_cex :
    0 < testFilmThr.aa_threshold_ ∧
    (testFilmThr.nextPass false false).1 =
      testFilmThr.height_ * testFilmThr.width_ ∧
    (testFilmThr.nextPass false false).2.doMoreSamples 0 0 = false := by
  decide

unseal Rat.add Rat.mul Rat.inv Rat.sub in
/-- C9: the single-area protocol is broken by `init`.  `nextArea`
delivers the whole-image area only while `area_cnt_` is zero and then
increments it (`imagefilm.cc:484-500`), treating `area_cnt_` as the
count of areas already delivered; but `init` sets `area_cnt_ = 1` in
non-tiled mode (`imagefilm.cc:204-211`), treating it as the total
number of areas.  So after `init` — the claim's starting point — the
very first `nextArea` call already reports exhaustion and the
whole-image area is never delivered, while before `init` (with
`area_cnt_` still zero) the call does deliver it. -/
theorem nextArea_single_area_bug :
    ((nonSplitFilm.init 1).nextArea).1 = Option.none ∧
    (nonSplitFilm.init 1).area_cnt_ = 1 ∧
    nonSplitFilm.area_cnt_ = 0 ∧
    nonSplitFilm.nextArea.1 = Option.some
      { x := 0, y := 0, w := 2, h := 2,
        sx0 := 1, sx1 := 1, sy0 := 1, sy1 := 1 } := by
  decide

/-- The rectangle enumeration grows by one row at a time. -/
theorem rectList_succ {α : Type} (w n : ℕ) (g : ℕ → ℕ → α) :
    rectList w (n + 1) g =
      rectList w n g ++ (List.range w).map (fun x => g x n) := by
  simp [rectList, List.range_succ]

/-- The rectangle enumeration of a `w × h` rectangle has `h * w`
entries. -/
theorem rectList_length {α : Type} (w h : ℕ) (g : ℕ → ℕ → α) :
    (rectList w h g).length = h * w := by
  induction h with
  | zero => simp [rectList]
  | succ n ih =>
    rw [rectList_succ, List.length_append, ih, List.length_map,
      List.length_range]
    ring

/-- Indexing a mapped range. -/
theorem map_range_getD {α : Type} (w : ℕ) (gg : ℕ → α) (d : α)
    (px : ℕ) (hx : px < w) :
    ((List.range w).map gg).getD px d = gg px := by
  rw [List.getD_eq_getElem _ _ (by simpa using hx)]
  simp

/-- The rectangle enumeration is row-major: entry `py * w + px` is the
pixel `(px, py)`. -/
theorem rectList_getD {α : Type} (w h : ℕ) (g : ℕ → ℕ → α) (d : α)
    (px py : ℕ) (hx : px < w) (hy : py < h) :
    (rectList w h g).getD (py * w + px) d = g px py := by
  induction h with
  | zero => omega
  | succ n ih =>
    rw [rectList_succ]
    rcases Nat.lt_or_ge py n with hlt | hge
    · have hmul := Nat.mul_le_mul_right w (Nat.succ_le_of_lt hlt)
      rw [List.getD_append _ _ _ _ (by rw [rectList_length]; nlinarith)]
      exact ih hlt
    · have hpy : py = n := by omega
      subst hpy
      rw [List.getD_append_right _ _ _ _ (by rw [rectList_length]; omega)]
      rw [rectList_length]
      have hsub : py * w + px - py * w = px := by omega
      rw [hsub]
      exact map_range_getD w _ d px hx

/-- Indexing a concatenation of equal-size blocks: entry `li * B + r`
is entry `r` of block `li`. -/
theorem flatMap_block_getD {α β : Type} (F : α → List β) (B : ℕ)
    (hB : ∀ a, (F a).length = B) (d : β) (dl : α) :
    ∀ (ls : List α) (li r : ℕ), li < ls.length → r < B →
      (ls.flatMap F).getD (li * B + r) d = (F (ls.getD li dl)).getD r d := by
  intro ls
  induction ls with
  | nil => intro li r hli _; simp at hli
  | cons a ls ih =>
    intro li r hli hr
    rw [List.flatMap_cons]
    cases li with
    | zero =>
      rw [Nat.zero_mul, Nat.zero_add]
      rw [List.getD_append _ _ _ _ (by rw [hB]; exact hr)]
      rfl
    | succ n =>
      rw [List.getD_append_right _ _ _ _ (by rw [hB]; nlinarith)]
      rw [hB]
      have hsub : (n + 1) * B + r - B = n * B + r := by
        have : (n + 1) * B = n * B + B := by ring
        omega
      rw [hsub]
      exact ih n r (by simpa using hli) hr

/-- A pixel-color list serializes to four tokens per pixel. -/
theorem rgbaTokens_length (cs : List Rgba) :
    (rgbaTokens cs).length = 4 * cs.length := by
  induction cs with
  | nil => rfl
  | cons c cs ih =>
    simp only [rgbaTokens, List.flatMap_cons, List.length_append,
      List.length_cons, List.length_nil] at ih ⊢
    omega

/-- Reading back exactly the serialized `f32` fields recovers them and
leaves the rest of the stream. -/
theorem readF32s_map (qs : List ℚ) (rest : List FilmToken) :
    readF32s qs.length (qs.map FilmToken.f32 ++ rest) =
      Option.some (qs, rest) := by
  induction qs with
  | nil => rfl
  | cons q qs ih =>
    simp [readF32s, readF32, ih]

/-- Reading back exactly the serialized RGBA pixels recovers them and
leaves the rest of the stream. -/
theorem readRgbas_rgbaTokens (cs : List Rgba) (rest : List FilmToken) :
    readRgbas cs.length (rgbaTokens cs ++ rest) = Option.some (cs, rest) := by
  induction cs with
  | nil => rfl
  | cons c cs ih =>
    simp only [rgbaTokens] at ih
    simp only [List.length_cons, rgbaTokens, List.flatMap_cons,
      List.cons_append, List.nil_append, readRgbas, readF32,
      Option.bind_eq_bind, Option.some_bind, ih]
    rfl

/-- Indexing a mapped list (the default is irrelevant in bounds). -/
theorem map_getD {α β : Type} (F : α → β) (l : List α) (d : β) (d2 : α)
    (n : ℕ) (h : n < l.length) :
    (l.map F).getD n d = F (l.getD n d2) := by
  rw [List.getD_eq_getElem _ _ (by simpa using h), List.getElem_map,
    List.getD_eq_getElem _ _ h]

/-- The per-layer load loop over the serialized layer blocks of a save:
it succeeds, pairs each in-memory layer type with the block read back
for it, and consumes exactly the blocks. -/
theorem readLayerGrids_blocks (w h : ℤ) :
    ∀ (gls fls : List (LayerType × Grid Rgba)) (rest : List FilmToken),
      gls.length = fls.length →
      ∃ out : List (LayerType × Grid Rgba),
        readLayerGrids w h gls
          (fls.flatMap (fun l => rgbaTokens (rectList w.toNat h.toNat
            (fun x y => l.2 (x : ℤ) (y : ℤ)))) ++ rest)
          = Option.some (out, rest) ∧
        out.length = gls.length ∧
        ∀ li : ℕ, li < gls.length →
          (out.getD li defaultLayer).1 = (gls.getD li defaultLayer).1 ∧
          (out.getD li defaultLayer).2 = fun x y =>
            (rectList w.toNat h.toNat
              (fun a b => (fls.getD li defaultLayer).2 (a : ℤ) (b : ℤ))).getD
              (y * w + x).toNat 0 := by
  intro gls
  induction gls with
  | nil =>
    intro fls rest hlen
    have hfls : fls = [] := List.length_eq_zero.mp hlen.symm
    subst hfls
    exact ⟨[], by simp [readLayerGrids], rfl, fun li hli => by simp at hli⟩
  | cons gl gls ih =>
    intro fls rest hlen
    cases fls with
    | nil => simp at hlen
    | cons fl fls =>
      obtain ⟨out2, hrun, hlen2, hli⟩ := ih fls rest (by simpa using hlen)
      refine ⟨(gl.1, fun x y =>
        (rectList w.toNat h.toNat
          (fun a b => fl.2 (a : ℤ) (b : ℤ))).getD (y * w + x).toNat 0)
        :: out2, ?_, ?_, ?_⟩
      · rw [List.flatMap_cons, List.append_assoc]
        simp only [readLayerGrids]
        rw [show h.toNat * w.toNat =
            (rectList w.toNat h.toNat
              (fun x y => fl.2 (x : ℤ) (y : ℤ))).length from
          (rectList_length _ _ _).symm]
        rw [readRgbas_rgbaTokens]
        simp only [Option.bind_eq_bind, Option.some_bind, hrun]
        rfl
      · simp [hlen2]
      · intro li hli2
        cases li with
        | zero => exact ⟨rfl, rfl⟩
        | succ n => exact hli n (by simpa using hli2)

set_option maxHeartbeats 2000000 in
/-- Loading a film's own save into a film of identical configuration
succeeds and produces exactly the offsets, the row-major weight grid
and the per-layer row-major color grids of the save. -/
theorem imageFilmLoad_roundtrip (f g : ImageFilm)
    (hw : g.width_ = f.width_) (hh : g.height_ = f.height_)
    (hcx0 : g.cx_0_ = f.cx_0_) (hcx1 : g.cx_1_ = f.cx_1_)
    (hcy0 : g.cy_0_ = f.cy_0_) (hcy1 : g.cy_1_ = f.cy_1_)
    (hnl : g.image_layers_.length = f.image_layers_.length) :
    ∃ out : List (LayerType × Grid Rgba),
      g.imageFilmLoad (Option.some f.imageFilmSave) =
        (true,
         ((g.withOffsets f.computer_node_ f.base_sampling_offset_
             f.sampling_offset_).withWeights (fun x y =>
           (rectList f.width_.toNat f.height_.toNat
             (fun a b => f.weights_ (a : ℤ) (b : ℤ))).getD
             (y * f.width_ + x).toNat 0)).withLayers out) ∧
      out.length = g.image_layers_.length ∧
      ∀ li : ℕ, li < g.image_layers_.length →
        (out.getD li defaultLayer).1 =
          (g.image_layers_.getD li defaultLayer).1 ∧
        (out.getD li defaultLayer).2 = fun x y =>
          (rectList f.width_.toNat f.height_.toNat
            (fun a b =>
              (f.image_layers_.getD li defaultLayer).2 (a : ℤ) (b : ℤ))).getD
            (y * f.width_ + x).toNat 0 := by
  obtain ⟨out, hrun, hlen, hli⟩ :=
    readLayerGrids_blocks f.width_ f.height_ g.image_layers_ f.image_layers_
      [] hnl
  rw [List.append_nil] at hrun
  refine ⟨out, ?_, hlen, hli⟩
  simp only [ImageFilm.imageFilmSave, ImageFilm.imageFilmLoad,
    ImageFilm.withOffsets, ImageFilm.withWeights, ImageFilm.withLayers,
    List.cons_append, List.nil_append, readStr, readU32, readI32]
  rw [if_neg (by decide : ¬("YAF_FILMv4_0_0" ≠ "YAF_FILMv4_0_0"))]
  rw [hw, hh, hcx0, hcx1, hcy0, hcy1, hnl]
  rw [if_neg (fun hne => hne rfl), if_neg (fun hne => hne rfl),
      if_neg (fun hne => hne rfl), if_neg (fun hne => hne rfl),
      if_neg (fun hne => hne rfl), if_neg (fun hne => hne rfl),
      if_neg (fun hne => hne rfl)]
  rw [show f.height_.toNat * f.width_.toNat =
      (rectList f.width_.toNat f.height_.toNat
        (fun x y => f.weights_ (x : ℤ) (y : ℤ))).length from
    (rectList_length _ _ _).symm]
  rw [readF32s_map]
  simp only [Option.bind_eq_bind, Option.some_bind]
  rw [hrun]

/-- C3: saving a film and loading the file into a film with identical
width, height, crop bounds and layer count succeeds and reproduces
every in-range pixel's weight and every layer's per-pixel color exactly
(the save/load pair is a lossless round-trip in the rational model of
the float fields). -/
theorem checkpoint_roundtrip (f g : ImageFilm)
    (hw : g.width_ = f.width_) (hh : g.height_ = f.height_)
    (hcx0 : g.cx_0_ = f.cx_0_) (hcx1 : g.cx_1_ = f.cx_1_)
    (hcy0 : g.cy_0_ = f.cy_0_) (hcy1 : g.cy_1_ = f.cy_1_)
    (hnl : g.image_layers_.length = f.image_layers_.length) :
    (g.imageFilmLoad (Option.some f.imageFilmSave)).1 = true ∧
    ∀ px py : ℕ, px < f.width_.toNat → py < f.height_.toNat →
      (g.imageFilmLoad (Option.some f.imageFilmSave)).2.weights_ px py =
        f.weights_ px py ∧
      ∀ li : ℕ, li < g.image_layers_.length →
        ((g.imageFilmLoad
            (Option.some f.imageFilmSave)).2.image_layers_.getD
              li defaultLayer).1 =
          (g.image_layers_.getD li defaultLayer).1 ∧
        ((g.imageFilmLoad
            (Option.some f.imageFilmSave)).2.image_layers_.getD
              li defaultLayer).2 px py =
          (f.image_layers_.getD li defaultLayer).2 px py := by
  obtain ⟨out, heval, hlen, hli⟩ :=
    imageFilmLoad_roundtrip f g hw hh hcx0 hcx1 hcy0 hcy1 hnl
  rw [heval]
  refine ⟨rfl, ?_⟩
  intro px py hx hy
  have hidx : (((py : ℤ)) * f.width_ + ((px : ℤ))).toNat =
      py * f.width_.toNat + px := by
    have h0 : f.width_ = (f.width_.toNat : ℤ) := by omega
    rw [h0, show ((py : ℤ) * (f.width_.toNat : ℤ) + (px : ℤ)) =
      ((py * f.width_.toNat + px : ℕ) : ℤ) from by push_cast; ring,
      Int.toNat_natCast]
    rw [Int.toNat_natCast]
  constructor
  · show (rectList f.width_.toNat f.height_.toNat
      (fun a b => f.weights_ (a : ℤ) (b : ℤ))).getD
        (((py : ℤ)) * f.width_ + ((px : ℤ))).toNat 0 =
      f.weights_ (px : ℤ) (py : ℤ)
    rw [hidx, rectList_getD _ _ _ _ _ _ hx hy]
  · intro li hli2
    refine ⟨(hli li hli2).1, ?_⟩
    have h2 := congrFun (congrFun (hli li hli2).2 ((px : ℕ) : ℤ)) ((py : ℕ) : ℤ)
    show (out.getD li defaultLayer).2 ((px : ℕ) : ℤ) ((py : ℕ) : ℤ) =
      (f.image_layers_.getD li defaultLayer).2 (px : ℤ) (py : ℤ)
    rw [h2, hidx, rectList_getD _ _ _ _ _ _ hx hy]

/-- Witness for C3: the 2×2 pattern film saved and loaded into the
blank 2×2 film of the same configuration. -/
theorem checkpoint_roundtrip_witness :
    (testFilm.imageFilmLoad (Option.some patternFilm.imageFilmSave)).1
      = true ∧
    (testFilm.imageFilmLoad
      (Option.some patternFilm.imageFilmSave)).2.weights_ 1 1 =
      patternFilm.weights_ 1 1 ∧
    ((testFilm.imageFilmLoad
      (Option.some patternFilm.imageFilmSave)).2.image_layers_.getD 0
        defaultLayer).2 1 1 =
      (patternFilm.image_layers_.getD 0 defaultLayer).2 1 1 :=
  have h := checkpoint_roundtrip patternFilm testFilm (by decide) (by decide)
    (by decide) (by decide) (by decide) (by decide) (by decide)
  ⟨h.1, (h.2 1 1 (by decide) (by decide)).1,
    ((h.2 1 1 (by decide) (by decide)).2 0 (by decide)).2⟩

/-- On a width mismatch, `imageFilmLoad` fails, but only after having
read the three sampling fields of the file into the film. -/
theorem imageFilmLoad_width_mismatch (f g : ImageFilm)
    (hne : g.width_ ≠ f.width_) :
    (f.imageFilmLoad (Option.some g.imageFilmSave)).1 = false ∧
    (f.imageFilmLoad (Option.some g.imageFilmSave)).2 =
      f.withOffsets g.computer_node_ g.base_sampling_offset_
        g.sampling_offset_ := by
  simp only [ImageFilm.imageFilmSave, ImageFilm.imageFilmLoad,
    ImageFilm.withOffsets, List.cons_append, List.nil_append,
    readStr, readU32, readI32]
  rw [if_neg (by decide : ¬("YAF_FILMv4_0_0" ≠ "YAF_FILMv4_0_0"))]
  rw [if_pos hne]
  exact ⟨rfl, rfl⟩

set_option maxHeartbeats 1000000 in
/-- C4: `imageFilmSave` writes the header string, `computerNode`,
`baseSamplingOffset`, `samplingOffset`, width, height, the four crop
bounds and the layer count as the first eleven fields in that order;
field `11 + py*width + px` is pixel `(px, py)`'s weight (row-major);
and for each layer `li`, the four consecutive fields starting at
`11 + height*width + li*4*height*width + 4*(py*width + px)` hold pixel
`(px, py)`'s red, green, blue and alpha components in that order. -/
theorem imageFilmSave_layout (f : ImageFilm) (px py : ℕ)
    (hx : px < f.width_.toNat) (hy : py < f.height_.toNat) :
    f.imageFilmSave.take 11 =
      [FilmToken.str "YAF_FILMv4_0_0",
       FilmToken.u32 f.computer_node_,
       FilmToken.u32 f.base_sampling_offset_,
       FilmToken.u32 f.sampling_offset_,
       FilmToken.i32 f.width_,
       FilmToken.i32 f.height_,
       FilmToken.i32 f.cx_0_,
       FilmToken.i32 f.cx_1_,
       FilmToken.i32 f.cy_0_,
       FilmToken.i32 f.cy_1_,
       FilmToken.i32 (f.image_layers_.length : ℤ)] ∧
    f.imageFilmSave.getD (11 + (py * f.width_.toNat + px)) (FilmToken.str "")
      = FilmToken.f32 (f.weights_ (px : ℤ) (py : ℤ)) ∧
    ∀ li : ℕ, li < f.image_layers_.length →
      (f.imageFilmSave.getD
        (11 + f.height_.toNat * f.width_.toNat +
          (li * (4 * (f.height_.toNat * f.width_.toNat)) +
           (4 * (py * f.width_.toNat + px) + 0))) (FilmToken.str "")
        = FilmToken.f32
            (Rgba.r ((f.image_layers_.getD li defaultLayer).2
              (px : ℤ) (py : ℤ)))) ∧
      (f.imageFilmSave.getD
        (11 + f.height_.toNat * f.width_.toNat +
          (li * (4 * (f.height_.toNat * f.width_.toNat)) +
           (4 * (py * f.width_.toNat + px) + 1))) (FilmToken.str "")
        = FilmToken.f32
            (Rgba.g ((f.image_layers_.getD li defaultLayer).2
              (px : ℤ) (py : ℤ)))) ∧
      (f.imageFilmSave.getD
        (11 + f.height_.toNat * f.width_.toNat +
          (li * (4 * (f.height_.toNat * f.width_.toNat)) +
           (4 * (py * f.width_.toNat + px) + 2))) (FilmToken.str "")
        = FilmToken.f32
            (Rgba.b ((f.image_layers_.getD li defaultLayer).2
              (px : ℤ) (py : ℤ)))) ∧
      (f.imageFilmSave.getD
        (11 + f.height_.toNat * f.width_.toNat +
          (li * (4 * (f.height_.toNat * f.width_.toNat)) +
           (4 * (py * f.width_.toNat + px) + 3))) (FilmToken.str "")
        = FilmToken.f32
            (Rgba.a ((f.image_layers_.getD li defaultLayer).2
              (px : ℤ) (py : ℤ)))) := by
  have hWpos : py * f.width_.toNat + px <
      f.height_.toNat * f.width_.toNat := by
    nlinarith [Nat.mul_le_mul_right f.width_.toNat (Nat.succ_le_of_lt hy)]
  refine ⟨rfl, ?_, ?_⟩
  · rw [ImageFilm.imageFilmSave, List.append_assoc]
    rw [List.getD_append_right _ _ _ _ (by simp)]
    have h11 : 11 + (py * f.width_.toNat + px) -
        ([FilmToken.str "YAF_FILMv4_0_0", FilmToken.u32 f.computer_node_,
          FilmToken.u32 f.base_sampling_offset_,
          FilmToken.u32 f.sampling_offset_, FilmToken.i32 f.width_,
          FilmToken.i32 f.height_, FilmToken.i32 f.cx_0_,
          FilmToken.i32 f.cx_1_, FilmToken.i32 f.cy_0_,
          FilmToken.i32 f.cy_1_,
          FilmToken.i32 (f.image_layers_.length : ℤ)] :
          List FilmToken).length = py * f.width_.toNat + px := by
      simp
    rw [h11]
    rw [List.getD_append _ _ _ _ (by
      rw [List.length_map, rectList_length]; exact hWpos)]
    rw [map_getD _ _ _ (0 : ℚ) _ (by rw [rectList_length]; exact hWpos)]
    rw [rectList_getD _ _ _ _ _ _ hx hy]
  · intro li hli
    have hcomp : ∀ co : ℕ, co < 4 →
        f.imageFilmSave.getD
          (11 + f.height_.toNat * f.width_.toNat +
            (li * (4 * (f.height_.toNat * f.width_.toNat)) +
             (4 * (py * f.width_.toNat + px) + co))) (FilmToken.str "")
          = [FilmToken.f32
               (Rgba.r ((f.image_layers_.getD li defaultLayer).2
                 (px : ℤ) (py : ℤ))),
             FilmToken.f32
               (Rgba.g ((f.image_layers_.getD li defaultLayer).2
                 (px : ℤ) (py : ℤ))),
             FilmToken.f32
               (Rgba.b ((f.image_layers_.getD li defaultLayer).2
                 (px : ℤ) (py : ℤ))),
             FilmToken.f32
               (Rgba.a ((f.image_layers_.getD li defaultLayer).2
                 (px : ℤ) (py : ℤ)))].getD co (FilmToken.str "") := by
      intro co hco
      rw [ImageFilm.imageFilmSave, List.append_assoc]
      rw [List.getD_append_right _ _ _ _ (by simp; omega)]
      have h11 : 11 + f.height_.toNat * f.width_.toNat +
          (li * (4 * (f.height_.toNat * f.width_.toNat)) +
            (4 * (py * f.width_.toNat + px) + co)) -
          ([FilmToken.str "YAF_FILMv4_0_0", FilmToken.u32 f.computer_node_,
            FilmToken.u32 f.base_sampling_offset_,
            FilmToken.u32 f.sampling_offset_, FilmToken.i32 f.width_,
            FilmToken.i32 f.height_, FilmToken.i32 f.cx_0_,
            FilmToken.i32 f.cx_1_, FilmToken.i32 f.cy_0_,
            FilmToken.i32 f.cy_1_,
            FilmToken.i32 (f.image_layers_.length : ℤ)] :
            List FilmToken).length =
          f.height_.toNat * f.width_.toNat +
            (li * (4 * (f.height_.toNat * f.width_.toNat)) +
              (4 * (py * f.width_.toNat + px) + co)) := by
        simp only [List.length_cons, List.length_nil]
        omega
      rw [h11]
      rw [List.getD_append_right _ _ _ _ (by
        rw [List.length_map, rectList_length]; omega)]
      have hsub : f.height_.toNat * f.width_.toNat +
          (li * (4 * (f.height_.toNat * f.width_.toNat)) +
            (4 * (py * f.width_.toNat + px) + co)) -
          ((rectList f.width_.toNat f.height_.toNat
            (fun x y => f.weights_ (x : ℤ) (y : ℤ))).map
              FilmToken.f32).length =
          li * (4 * (f.height_.toNat * f.width_.toNat)) +
            (4 * (py * f.width_.toNat + px) + co) := by
        rw [List.length_map, rectList_length]; omega
      rw [hsub]
      rw [flatMap_block_getD _ (4 * (f.height_.toNat * f.width_.toNat))
        (fun l => by rw [rgbaTokens_length, rectList_length])
        _ defaultLayer _ li _ hli (by omega)]
      rw [show 4 * (py * f.width_.toNat + px) + co =
          (py * f.width_.toNat + px) * 4 + co from by ring]
      rw [rgbaTokens]
      rw [flatMap_block_getD
        (fun c => [FilmToken.f32 (Rgba.r c), FilmToken.f32 (Rgba.g c),
          FilmToken.f32 (Rgba.b c), FilmToken.f32 (Rgba.a c)]) 4
        (fun c => rfl) _ (0 : Rgba) _
        (py * f.width_.toNat + px) co (by rw [rectList_length]; exact hWpos)
        hco]
      rw [rectList_getD _ _ _ _ _ _ hx hy]
    exact ⟨hcomp 0 (by omega), hcomp 1 (by omega), hcomp 2 (by omega),
      hcomp 3 (by omega)⟩

/-- Witness for C4 on the pattern film: the weight of pixel `(1, 1)`
sits at field `11 + 1*2 + 1`, and the green and alpha components of
layer 0's pixel `(1, 1)` at offsets 1 and 3 of its four-field color
block. -/
theorem imageFilmSave_layout_witness :
    patternFilm.imageFilmSave.getD
      (11 + (1 * patternFilm.width_.toNat + 1)) (FilmToken.str "") =
      FilmToken.f32 (patternFilm.weights_ 1 1) ∧
    patternFilm.imageFilmSave.getD
      (11 + patternFilm.height_.toNat * patternFilm.width_.toNat +
        (0 * (4 * (patternFilm.height_.toNat * patternFilm.width_.toNat)) +
         (4 * (1 * patternFilm.width_.toNat + 1) + 1))) (FilmToken.str "") =
      FilmToken.f32
        (Rgba.g ((patternFilm.image_layers_.getD 0 defaultLayer).2 1 1)) ∧
    patternFilm.imageFilmSave.getD
      (11 + patternFilm.height_.toNat * patternFilm.width_.toNat +
        (0 * (4 * (patternFilm.height_.toNat * patternFilm.width_.toNat)) +
         (4 * (1 * patternFilm.width_.toNat + 1) + 3))) (FilmToken.str "") =
      FilmToken.f32
        (Rgba.a ((patternFilm.image_layers_.getD 0 defaultLayer).2 1 1)) :=
  have h := imageFilmSave_layout patternFilm 1 1 (by decide) (by decide)
  ⟨h.2.1, (h.2.2 0 (by decide)).2.1, (h.2.2 0 (by decide)).2.2.2⟩

end YafaRay
